import Mathlib

/-!
Verification of the ReAct agent repository (`react_agent.py`,
`utils/tool_manager.py`, `utils/formatters.py`, `tools/norm_tools.py`,
`tools/get_device_report.py`) against its natural-language specification.

The Python code is shallowly embedded:
* JSON-compatible Python values are the mutual inductive `PyVal`;
* code that can raise returns `Except String` (the error carries `str(e)`);
* external capabilities (the chat-completion backend, the device-inventory
  HTTP API, `hashlib.md5`) are parameters of the embedding, so theorems
  quantify over all of their behaviours;
* the ReAct loop `ReActAgent.process_query` is a fuel recursion over the
  iteration budget, instrumented with the trace of executed tool calls,
  the trace of model responses, the number of model calls and the caught
  exception (if the query ended in the `except` handler).
-/

namespace NormAgent

/-! ## Python value model (JSON-compatible values) -/

mutual
/-- A JSON-compatible Python value: `None`, `bool`, `int`, `str`, `list`, `dict`.
Non-integer numerals are not modelled (no claim exercises them). -/
inductive PyVal where
  | none
  | bool (b : Bool)
  | int (n : Int)
  | str (s : String)
  | list (xs : PyItems)
  | dict (kvs : PyFields)
deriving DecidableEq, Repr

/-- The items of a Python list value. -/
inductive PyItems where
  | nil
  | cons (hd : PyVal) (tl : PyItems)
deriving DecidableEq, Repr

/-- The fields of a Python dict value, in insertion order. -/
inductive PyFields where
  | nil
  | cons (key : String) (val : PyVal) (tl : PyFields)
deriving DecidableEq, Repr
end

/-- Build `PyItems` from a `List`. -/
def PyItems.ofList : List PyVal → PyItems
  | [] => .nil
  | x :: xs => .cons x (PyItems.ofList xs)

/-- Build `PyFields` from a `List`. -/
def PyFields.ofList : List (String × PyVal) → PyFields
  | [] => .nil
  | (k, v) :: xs => .cons k v (PyFields.ofList xs)

/-- Convenience: a Python list value from a Lean list. -/
def pyList (xs : List PyVal) : PyVal := .list (PyItems.ofList xs)

/-- Convenience: a Python dict value from a Lean association list. -/
def pyDict (kvs : List (String × PyVal)) : PyVal := .dict (PyFields.ofList kvs)

/-- Dict field lookup (first occurrence; dicts built by the JSON parser have
unique keys, mirroring Python dict semantics). -/
def PyFields.lookup : PyFields → String → Option PyVal
  | .nil, _ => Option.none
  | .cons k v tl, key => if k = key then some v else tl.lookup key

/-- `key in d` for a dict. -/
def PyFields.hasKey (fs : PyFields) (k : String) : Bool := (fs.lookup k).isSome

/-- Dict update with Python semantics: an existing key keeps its position and
gets the new value, a new key is appended. -/
def PyFields.set : PyFields → String → PyVal → PyFields
  | .nil, k, v => .cons k v .nil
  | .cons k0 v0 tl, k, v =>
      if k0 = k then .cons k0 v tl else .cons k0 v0 (tl.set k v)

/-- Number of fields. -/
def PyFields.size : PyFields → Nat
  | .nil => 0
  | .cons _ _ tl => tl.size + 1

/-- Number of items. -/
def PyItems.size : PyItems → Nat
  | .nil => 0
  | .cons _ tl => tl.size + 1

/-- `d.get(key, default)` — the Python dict method; raises `AttributeError`
on a non-dict receiver. -/
def pyGetMethod (v : PyVal) (k : String) (d : PyVal) : Except String PyVal :=
  match v with
  | .dict fs => .ok ((fs.lookup k).getD d)
  | _ => .error ("AttributeError: object has no attribute " ++ "get" ++ " (key " ++ k ++ ")")

/-- `d.get(key, default)` on a value known to be a dict (total form used where
the source guarantees a dict). -/
def pyDictGetD (fs : PyFields) (k : String) (d : PyVal) : PyVal :=
  (fs.lookup k).getD d

/-- `v[key]` — subscription; `KeyError` on a missing key, `TypeError` on a
non-dict receiver (string subscription by string key is also a `TypeError`). -/
def pyIndex (v : PyVal) (k : String) : Except String PyVal :=
  match v with
  | .dict fs =>
      match fs.lookup k with
      | some x => .ok x
      | Option.none => .error ("KeyError: " ++ k)
  | _ => .error "TypeError: value is not subscriptable by a string key"

/-- Python truthiness of a value. -/
def pyTruthy : PyVal → Bool
  | .none => false
  | .bool b => b
  | .int n => n != 0
  | .str s => s != ""
  | .list .nil => false
  | .list _ => true
  | .dict .nil => false
  | .dict _ => true

/-- Python `x == "s"` for a value compared with a string literal. -/
def pyIsStrEq (v : PyVal) (s : String) : Bool :=
  match v with
  | .str t => t = s
  | _ => false

/-- Membership of a value in Python list items. -/
def PyItems.memVal (xs : PyItems) (v : PyVal) : Bool :=
  match xs with
  | .nil => false
  | .cons x tl => x = v || tl.memVal v

/-! ## Rendering: `str()` and `repr()`

Python `repr` of a string is modelled without escape handling (every string
exercised by the theorems is free of quotes and control characters). -/

/-- Decimal digits of a natural number, most significant first (fuel-based). -/
def natDigitsAux : Nat → Nat → List Char
  | 0, _ => []
  | _ + 1, n =>
      if n = 0 then []
      else natDigitsAux n (n / 10) ++ [Char.ofNat (48 + n % 10)]

/-- Python `str()` of an integer. -/
def intPyStr (n : Int) : String :=
  if n = 0 then "0"
  else if n < 0 then String.mk (Char.ofNat 45 :: natDigitsAux n.natAbs n.natAbs)
  else String.mk (natDigitsAux n.natAbs n.natAbs)

mutual
/-- Python `repr()` of a value. -/
def pyRepr : PyVal → String
  | .none => "None"
  | .bool b => if b then "True" else "False"
  | .int n => intPyStr n
  | .str s => "\x27" ++ s ++ "\x27"
  | .list xs => "[" ++ pyReprItems xs ++ "]"
  | .dict fs => "\x7b" ++ pyReprFields fs ++ "\x7d"

/-- `repr` of list items, comma separated. -/
def pyReprItems : PyItems → String
  | .nil => ""
  | .cons x .nil => pyRepr x
  | .cons x tl => pyRepr x ++ ", " ++ pyReprItems tl

/-- `repr` of dict fields, comma separated. -/
def pyReprFields : PyFields → String
  | .nil => ""
  | .cons k v .nil => "\x27" ++ k ++ "\x27: " ++ pyRepr v
  | .cons k v tl => "\x27" ++ k ++ "\x27: " ++ pyRepr v ++ ", " ++ pyReprFields tl
end

/-- Python `str()` of a value (as used by f-string interpolation). -/
def pyStr (v : PyVal) : String :=
  match v with
  | .str s => s
  | _ => pyRepr v

/-! ## Character and string utilities (Python `strip`, `lower`, `in`) -/

/-- The whitespace characters of Python `str.strip()` and of the regex `\s`
class (ASCII): space, tab, newline, carriage return, vertical tab, form feed. -/
def pyIsSpaceB (c : Char) : Bool :=
  c = ' ' || c = '\n' || c = '\t' || c = '\r' || c = Char.ofNat 11 || c = Char.ofNat 12

/-- Drop leading whitespace. -/
def dropWs (cs : List Char) : List Char := cs.dropWhile pyIsSpaceB

/-- Python `str.strip()`. -/
def stripChars (cs : List Char) : List Char :=
  ((cs.dropWhile pyIsSpaceB).reverse.dropWhile pyIsSpaceB).reverse

/-- Python `str.strip()` on `String`. -/
def pyStrip (s : String) : String := String.mk (stripChars s.data)

/-- ASCII lower-casing of one character. -/
def lowerChar (c : Char) : Char :=
  if 65 ≤ c.toNat && c.toNat ≤ 90 then Char.ofNat (c.toNat + 32) else c

/-- Python `str.lower()` (ASCII; every string exercised is ASCII). -/
def pyLower (s : String) : String := String.mk (s.data.map lowerChar)

/-- Does `cs` start with `pat`? -/
def startsWithSeq : List Char → List Char → Bool
  | _, [] => true
  | [], _ :: _ => false
  | c :: cs, p :: ps => c = p && startsWithSeq cs ps

/-- Does `cs` contain `pat` as a contiguous subsequence? -/
def containsSeq (cs pat : List Char) : Bool :=
  startsWithSeq cs pat ||
    (match cs with
     | [] => false
     | _ :: tl => containsSeq tl pat)

/-- Python `pat in s` for strings. -/
def strContainsB (s pat : String) : Bool := containsSeq s.data pat.data

/-- The characters after the first occurrence of `pat` in `cs`, if any. -/
def afterSeq : List Char → List Char → Option (List Char)
  | cs, pat =>
      if startsWithSeq cs pat then some (cs.drop pat.length)
      else
        match cs with
        | [] => Option.none
        | _ :: tl => afterSeq tl pat

/-- The substring after the first occurrence of `pat` in `s`, if any. -/
def strAfterFirst (s pat : String) : Option String :=
  (afterSeq s.data pat.data).map String.mk

/-- Python `needle in v` for a search by string: key membership in a dict,
element membership in a list, substring in a string, `TypeError` otherwise. -/
def pyContains (needle : String) (v : PyVal) : Except String Bool :=
  match v with
  | .dict fs => .ok (fs.hasKey needle)
  | .list xs => .ok (xs.memVal (.str needle))
  | .str s => .ok (strContainsB s needle)
  | _ => .error "TypeError: argument of type is not iterable"

/-- Boolean membership of a string in a list of strings (Python `in`). -/
def memStr (x : String) (l : List String) : Bool := l.any (fun y => x = y)

/-! ## A model of `json.loads`

A standard JSON recursive-descent parser (fuel-based so that it is
structurally recursive and kernel-evaluable).  `\uXXXX` escapes and
non-integer numerals are not modelled; no claim exercises them. -/

/-- The double-quote character. -/
def qChar : Char := Char.ofNat 34

/-- The backslash character. -/
def bsChar : Char := Char.ofNat 92

/-- Left curly brace. -/
def braceL : Char := Char.ofNat 123

/-- Right curly brace. -/
def braceR : Char := Char.ofNat 125

/-- Left square bracket. -/
def brackL : Char := Char.ofNat 91

/-- Right square bracket. -/
def brackR : Char := Char.ofNat 93

/-- Comma. -/
def commaChar : Char := Char.ofNat 44

/-- Colon. -/
def colonChar : Char := Char.ofNat 58

/-- Minus sign. -/
def minusChar : Char := Char.ofNat 45

/-- ASCII digit test. -/
def isDigitB (c : Char) : Bool := 48 ≤ c.toNat && c.toNat ≤ 57

/-- Value of a digit run. -/
def digitsVal (cs : List Char) : Nat :=
  cs.foldl (fun acc c => acc * 10 + (c.toNat - 48)) 0

/-- Integer value from sign and digit run. -/
def mkIntVal (neg : Bool) (ds : List Char) : PyVal :=
  .int (if neg then -(digitsVal ds : Int) else (digitsVal ds : Int))

/-- Parse the body of a JSON string after the opening quote; returns the
decoded content and the characters after the closing quote. -/
def jsonStringBody : List Char → Option (List Char × List Char)
  | [] => Option.none
  | c :: rest =>
      if c = qChar then some ([], rest)
      else if c = bsChar then
        match rest with
        | [] => Option.none
        | e :: rest2 =>
            let d? : Option Char :=
              if e = qChar then some qChar
              else if e = bsChar then some bsChar
              else if e = Char.ofNat 47 then some (Char.ofNat 47)
              else if e = 'n' then some '\n'
              else if e = 't' then some '\t'
              else if e = 'r' then some '\r'
              else if e = 'b' then some (Char.ofNat 8)
              else if e = 'f' then some (Char.ofNat 12)
              else Option.none
            match d? with
            | some d => (jsonStringBody rest2).map (fun p => (d :: p.1, p.2))
            | Option.none => Option.none
      else (jsonStringBody rest).map (fun p => (c :: p.1, p.2))

/-- Append an item at the end of Python list items. -/
def PyItems.push : PyItems → PyVal → PyItems
  | .nil, v => .cons v .nil
  | .cons x tl, v => .cons x (tl.push v)

mutual
/-- Parse one JSON value (after optional whitespace). -/
def parseVal (fuel : Nat) (cs : List Char) : Option (PyVal × List Char) :=
  match fuel with
  | 0 => Option.none
  | fuel + 1 =>
      let cs := dropWs cs
      match cs with
      | [] => Option.none
      | c :: rest =>
          if c = qChar then
            (jsonStringBody rest).map (fun p => (PyVal.str (String.mk p.1), p.2))
          else if c = braceL then
            match dropWs rest with
            | c2 :: rest3 =>
                if c2 = braceR then some (PyVal.dict .nil, rest3)
                else parseFields fuel (dropWs rest) PyFields.nil
            | [] => Option.none
          else if c = brackL then
            match dropWs rest with
            | c2 :: rest3 =>
                if c2 = brackR then some (PyVal.list .nil, rest3)
                else parseItems fuel (dropWs rest) PyItems.nil
            | [] => Option.none
          else if startsWithSeq cs "true".data then some (PyVal.bool true, cs.drop 4)
          else if startsWithSeq cs "false".data then some (PyVal.bool false, cs.drop 5)
          else if startsWithSeq cs "null".data then some (PyVal.none, cs.drop 4)
          else if c = minusChar || isDigitB c then
            let neg := c = minusChar
            let body := if neg then rest else cs
            let ds := body.takeWhile isDigitB
            let rest4 := body.dropWhile isDigitB
            if ds.isEmpty then Option.none
            else
              match rest4 with
              | c4 :: _ =>
                  if c4 = Char.ofNat 46 || c4 = 'e' || c4 = 'E' then Option.none
                  else some (mkIntVal neg ds, rest4)
              | [] => some (mkIntVal neg ds, rest4)
          else Option.none

/-- Parse JSON object members starting at a key; `acc` holds the fields
parsed so far (duplicate keys overwrite, as in Python). -/
def parseFields (fuel : Nat) (cs : List Char) (acc : PyFields) : Option (PyVal × List Char) :=
  match fuel with
  | 0 => Option.none
  | fuel + 1 =>
      match dropWs cs with
      | [] => Option.none
      | c :: rest =>
          if c = qChar then
            match jsonStringBody rest with
            | some (kcs, rest2) =>
                (match dropWs rest2 with
                 | c2 :: rest3 =>
                     if c2 = colonChar then
                       match parseVal fuel rest3 with
                       | some (v, rest4) =>
                           (match dropWs rest4 with
                            | c5 :: rest5 =>
                                if c5 = commaChar then
                                  parseFields fuel rest5 (acc.set (String.mk kcs) v)
                                else if c5 = braceR then
                                  some (PyVal.dict (acc.set (String.mk kcs) v), rest5)
                                else Option.none
                            | [] => Option.none)
                       | Option.none => Option.none
                     else Option.none
                 | [] => Option.none)
            | Option.none => Option.none
          else Option.none

/-- Parse JSON array items starting at a value. -/
def parseItems (fuel : Nat) (cs : List Char) (acc : PyItems) : Option (PyVal × List Char) :=
  match fuel with
  | 0 => Option.none
  | fuel + 1 =>
      match parseVal fuel cs with
      | some (v, rest) =>
          (match dropWs rest with
           | c :: rest2 =>
               if c = commaChar then parseItems fuel rest2 (acc.push v)
               else if c = brackR then some (PyVal.list (acc.push v), rest2)
               else Option.none
           | [] => Option.none)
      | Option.none => Option.none
end

/-- `json.loads`: parse a complete JSON document (trailing whitespace only). -/
def jsonLoads (s : String) : Option PyVal :=
  match parseVal (2 * s.data.length + 2) s.data with
  | some (v, rest) => if dropWs rest = [] then some v else Option.none
  | Option.none => Option.none

/-! ## The two tool-call block patterns of `ToolManager`

`ToolManager.find_all_tool_calls` scans with the regexes
`<tool_call>\s*(\{.*?\})\s*</tool_call>` and
"```tool_call" `\s*(\{.*?\})\s*` "```" under `re.DOTALL`.
Both are literal-anchored with a lazy body, so matching is implemented
directly: after the opening literal, greedy `\s*` then a literal brace,
then the shortest body ending in a brace that is followed by `\s*` and the
closing literal.  `re.finditer` yields non-overlapping matches scanning
left to right. -/

/-- Opening literal of the tagged pattern. -/
def tagOpenCs : List Char := "<tool_call>".data

/-- Closing literal of the tagged pattern. -/
def tagCloseCs : List Char := "</tool_call>".data

/-- Opening literal of the fenced pattern. -/
def fenceOpenCs : List Char := "```tool_call".data

/-- Closing literal of the fenced pattern. -/
def fenceCloseCs : List Char := "```".data

/-- After the opening brace: find the shortest body ending at a closing brace
that is followed by optional whitespace and the closing literal.  Returns the
group characters after the opening brace (ending with the closing brace) and
the remainder after the closing literal. -/
def findLazyClose (close : List Char) : List Char → Option (List Char × List Char)
  | [] => Option.none
  | c :: rest =>
      if c = braceR && startsWithSeq (dropWs rest) close then
        some ([braceR], (dropWs rest).drop close.length)
      else
        (findLazyClose close rest).map (fun p => (c :: p.1, p.2))

/-- Try to match one pattern occurrence starting exactly here; returns the
captured group (brace to brace) and the remainder after the match. -/
def tryMatchAt (openTok close : List Char) (cs : List Char) : Option (List Char × List Char) :=
  if startsWithSeq cs openTok then
    match dropWs (cs.drop openTok.length) with
    | c :: rest =>
        if c = braceL then
          (findLazyClose close rest).map (fun p => (braceL :: p.1, p.2))
        else Option.none
    | [] => Option.none
  else Option.none

/-- `re.finditer`: all non-overlapping matches scanning left to right,
with the start position of each match. -/
def finditerAux (openTok close : List Char) : Nat → Nat → List Char → List (Nat × List Char)
  | 0, _, _ => []
  | _ + 1, _, [] => []
  | fuel + 1, pos, c :: tl =>
      match tryMatchAt openTok close (c :: tl) with
      | some (g, rest) =>
          (pos, g) :: finditerAux openTok close fuel (pos + ((c :: tl).length - rest.length)) rest
      | Option.none => finditerAux openTok close fuel (pos + 1) tl

/-- All matches of one pattern with their start positions. -/
def finditer (openTok close : List Char) (cs : List Char) : List (Nat × List Char) :=
  finditerAux openTok close (cs.length + 1) 0 cs

/-! ## `ToolManager` (src/utils/tool_manager.py) -/

/-- One match group: `json.loads` it; a parse failure is skipped
(`except json.JSONDecodeError: continue`); a parsed value is kept only if
`"name" in tool_call` (the group always starts with a brace, so a parsed
value is an object and the membership test cannot raise). -/
def parseBlock (g : List Char) : Except String (Option PyVal) :=
  match jsonLoads (String.mk g) with
  | Option.none => .ok Option.none
  | some v => do
      let b ← pyContains "name" v
      pure (if b then some v else Option.none)

/-- Collect the accepted tool calls of a run of matches, in match order. -/
def collectBlocks : List (Nat × List Char) → Except String (List PyVal)
  | [] => .ok []
  | (_, g) :: rest => do
      let x ← parseBlock g
      let xs ← collectBlocks rest
      pure (match x with | some v => v :: xs | Option.none => xs)

/-- `ToolManager.find_all_tool_calls`: for each pattern in order
(tagged first, fenced second), append every successfully parsed block that
has a `name` field, in match order within the pattern. -/
def find_all_tool_calls (response : String) : Except String (List PyVal) := do
  let a ← collectBlocks (finditer tagOpenCs tagCloseCs response.data)
  let b ← collectBlocks (finditer fenceOpenCs fenceCloseCs response.data)
  pure (a ++ b)

/-- Modelled from the spec: "Scans for ALL non-overlapping matches of at
least two accepted delimiting syntaxes ... in the order they appear in the
text."  This second definition follows the spec words (merge the two
patterns' matches by text position) and is compared with
`find_all_tool_calls`, which is translated from the source. -/
def find_all_text_order (response : String) : Except String (List PyVal) :=
  collectBlocks
    (mergeByPos ((finditer tagOpenCs tagCloseCs response.data).length
                  + (finditer fenceOpenCs fenceCloseCs response.data).length)
      (finditer tagOpenCs tagCloseCs response.data)
      (finditer fenceOpenCs fenceCloseCs response.data))
where
  /-- Merge two position-sorted match lists by start position (fuel-based). -/
  mergeByPos : Nat → List (Nat × List Char) → List (Nat × List Char) → List (Nat × List Char)
    | 0, xs, ys => xs ++ ys
    | _ + 1, [], ys => ys
    | _ + 1, xs, [] => xs
    | fuel + 1, x :: xs, y :: ys =>
        if x.1 ≤ y.1 then x :: mergeByPos fuel xs (y :: ys)
        else y :: mergeByPos fuel (x :: xs) ys

/-- `ToolManager.generate_tool_id`: a short stable hash of
`f"{name}_{str(arguments)}"`.  `hashlib.md5(...).hexdigest()[:8]` is an
external deterministic function of that string, taken as the parameter
`md5trunc`; every theorem holds for all such functions. -/
def generate_tool_id (md5trunc : String → String) (tc : PyVal) : Except String String := do
  let n ← pyGetMethod tc "name" .none
  let a ← pyGetMethod tc "arguments" (pyDict [])
  pure (md5trunc (pyStr n ++ "_" ++ pyStr a))

/-! ## Further Python operations used by the formatter -/

/-- Items as a Lean list. -/
def PyItems.toList : PyItems → List PyVal
  | .nil => []
  | .cons x tl => x :: tl.toList

/-- Fields as a Lean association list (insertion order, `d.items()`). -/
def PyFields.toPairs : PyFields → List (String × PyVal)
  | .nil => []
  | .cons k v tl => (k, v) :: tl.toPairs

/-- Field keys in insertion order (`d.keys()`). -/
def PyFields.keys : PyFields → List String
  | .nil => []
  | .cons k _ tl => k :: tl.keys

/-- `len(v)`: defined for strings, lists and dicts; `TypeError` otherwise. -/
def pyLen : PyVal → Except String Nat
  | .str s => .ok s.data.length
  | .list xs => .ok xs.size
  | .dict fs => .ok fs.size
  | _ => .error "TypeError: object has no len"

/-- Iteration (`for x in v`): list elements, string characters (as 1-char
strings), dict keys; `TypeError` otherwise. -/
def pyIterate : PyVal → Except String (List PyVal)
  | .list xs => .ok xs.toList
  | .str s => .ok (s.data.map (fun c => PyVal.str (String.mk [c])))
  | .dict fs => .ok (fs.keys.map PyVal.str)
  | _ => .error "TypeError: object is not iterable"

/-- `v[i]` for a non-negative integer index. -/
def pyIndexNat : PyVal → Nat → Except String PyVal
  | .list xs, i =>
      (match xs.toList.drop i with
       | x :: _ => .ok x
       | [] => .error "IndexError: list index out of range")
  | .str s, i =>
      (match s.data.drop i with
       | c :: _ => .ok (PyVal.str (String.mk [c]))
       | [] => .error "IndexError: string index out of range")
  | .dict _, _ => .error "KeyError: integer key"
  | _, _ => .error "TypeError: object is not subscriptable"

/-- `v[:n]` — slicing; strings and lists are sliceable, dicts are not. -/
def pySliceN : PyVal → Nat → Except String PyVal
  | .list xs, n => .ok (.list (PyItems.ofList (xs.toList.take n)))
  | .str s, n => .ok (.str (String.mk (s.data.take n)))
  | _, _ => .error "TypeError: object is not sliceable"

/-- `sep.join(xs)` over already-iterated elements: every element must be a
string, else `TypeError`. -/
def pyJoin (sep : String) : List PyVal → Except String String
  | [] => .ok ""
  | [x] =>
      (match x with
       | .str s => .ok s
       | _ => .error "TypeError: sequence item is not a string")
  | x :: xs =>
      match x with
      | .str s => do
          let r ← pyJoin sep xs
          pure (s ++ sep ++ r)
      | _ => .error "TypeError: sequence item is not a string"

/-- `sep.join(v)` for an arbitrary iterable value. -/
def pyJoinVal (sep : String) (v : PyVal) : Except String String := do
  let xs ← pyIterate v
  pyJoin sep xs

/-- `"\n".join(parts)` and friends for Lean string lists. -/
def joinSep (sep : String) : List String → String
  | [] => ""
  | [x] => x
  | x :: xs => x ++ sep ++ joinSep sep xs

/-- `s * n` (string repetition). -/
def strRepeat (s : String) : Nat → String
  | 0 => ""
  | n + 1 => s ++ strRepeat s n

/-- `s[:n]` on a Lean string. -/
def strTakeN (s : String) (n : Nat) : String := String.mk (s.data.take n)

/-- ASCII upper-casing of one character. -/
def upperChar (c : Char) : Char :=
  if 97 ≤ c.toNat && c.toNat ≤ 122 then Char.ofNat (c.toNat - 32) else c

/-- `key.upper().replace(UNDERSCORE, SPACE)`. -/
def upperRepl (s : String) : String :=
  String.mk (s.data.map (fun c => if c = Char.ofNat 95 then ' ' else upperChar c))

/-- `f"{type(v)}"`. -/
def pyTypeStr : PyVal → String
  | .none => "<class \x27NoneType\x27>"
  | .bool _ => "<class \x27bool\x27>"
  | .int _ => "<class \x27int\x27>"
  | .str _ => "<class \x27str\x27>"
  | .list _ => "<class \x27list\x27>"
  | .dict _ => "<class \x27dict\x27>"

/-- Monadic concat-map used for the formatter loops. -/
def concatMapE (f : PyVal → Except String (List String)) : List PyVal → Except String (List String)
  | [] => .ok []
  | x :: xs => do
      let a ← f x
      let b ← concatMapE f xs
      pure (a ++ b)

/-- Monadic concat-map over dict pairs. -/
def concatMapPairsE (f : String × PyVal → Except String (List String)) :
    List (String × PyVal) → Except String (List String)
  | [] => .ok []
  | x :: xs => do
      let a ← f x
      let b ← concatMapPairsE f xs
      pure (a ++ b)

mutual
/-- A model of `json.dumps(v, indent=2)` (the exact whitespace of the dump
matters to no claim; structure and quoting follow the real encoder). -/
def jsonDumps2 (ind : Nat) : PyVal → String
  | .none => "null"
  | .bool b => if b then "true" else "false"
  | .int n => intPyStr n
  | .str s => String.mk [qChar] ++ s ++ String.mk [qChar]
  | .list .nil => "[]"
  | .list xs =>
      "[\n" ++ jsonDumps2Items (ind + 2) xs ++ "\n" ++ strRepeat " " ind ++ "]"
  | .dict .nil => "\x7b\x7d"
  | .dict fs =>
      "\x7b\n" ++ jsonDumps2Fields (ind + 2) fs ++ "\n" ++ strRepeat " " ind ++ "\x7d"

/-- Items of an indented dump. -/
def jsonDumps2Items (ind : Nat) : PyItems → String
  | .nil => ""
  | .cons x .nil => strRepeat " " ind ++ jsonDumps2 ind x
  | .cons x tl => strRepeat " " ind ++ jsonDumps2 ind x ++ ",\n" ++ jsonDumps2Items ind tl

/-- Fields of an indented dump. -/
def jsonDumps2Fields (ind : Nat) : PyFields → String
  | .nil => ""
  | .cons k v .nil =>
      strRepeat " " ind ++ String.mk [qChar] ++ k ++ String.mk [qChar] ++ ": " ++ jsonDumps2 ind v
  | .cons k v tl =>
      strRepeat " " ind ++ String.mk [qChar] ++ k ++ String.mk [qChar] ++ ": " ++ jsonDumps2 ind v
        ++ ",\n" ++ jsonDumps2Fields ind tl
end

/-- `str()` of a natural number. -/
def natStr (n : Nat) : String := intPyStr (Int.ofNat n)

/-- Monadic map used for the formatter loops. -/
def listMapE (f : PyVal → Except String String) : List PyVal → Except String (List String)
  | [] => .ok []
  | x :: xs => do
      let a ← f x
      let b ← listMapE f xs
      pure (a :: b)

/-! ## `ResponseFormatter` (src/utils/formatters.py) -/

/-- `ResponseFormatter.format_device_data`: renders one device dict, with
`.get` defaults; raises `AttributeError` on a non-dict device and `TypeError`
for `len` of a non-sized `interfaces` value. -/
def format_device_data (device : PyVal) : Except String String :=
  match device with
  | .dict fs => do
      let hostname := pyDictGetD fs "hostname" (.str "Unknown")
      let ip := pyDictGetD fs "management_ip" (pyDictGetD fs "ip_address" (.str "N/A"))
      let vendor := pyDictGetD fs "vendor" (.str "Unknown")
      let model := pyDictGetD fs "model" (pyDictGetD fs "device_type" (.str "Unknown"))
      let status := pyDictGetD fs "status" (pyDictGetD fs "operational_status" (.str "Unknown"))
      let location := pyDictGetD fs "location" (pyDictGetD fs "site" (.str "N/A"))
      let parts := ["Device: " ++ pyStr hostname,
                    "  - IP: " ++ pyStr ip,
                    "  - Vendor/Model: " ++ pyStr vendor ++ " " ++ pyStr model,
                    "  - Status: " ++ pyStr status]
      let parts := if pyIsStrEq location "N/A" then parts
                   else parts ++ ["  - Location: " ++ pyStr location]
      let parts ← (match fs.lookup "interfaces" with
        | some iv => do
            let n ← pyLen iv
            pure (parts ++ ["  - Interfaces: " ++ natStr n ++ " total"])
        | Option.none => pure parts)
      pure (joinSep "\n" parts)
  | _ => .error "AttributeError: object has no attribute get"

/-- Accumulator of the `format_super_search_response` classification loop. -/
structure SSState where
  device_info : Option (PyVal × List PyVal)
  interfaces : List (PyVal × PyVal × PyVal)
  network_info : Option (PyVal × PyVal × PyVal)
  chassis_info : Option PyVal
  connections : List (PyVal × PyVal × PyVal × PyVal)

/-- Initial accumulator. -/
def SSState.init : SSState := ⟨Option.none, [], Option.none, Option.none, []⟩

/-- One iteration of the classification loop over `response["data"]` items. -/
def ssStep (st : SSState) (item : PyVal) : Except String SSState := do
  let classname ← pyGetMethod item "classname" (.str "")
  let identifier ← pyGetMethod item "identifier" (.str "")
  let additional_info ← pyGetMethod item "additional_info" (.list .nil)
  let origin ← pyGetMethod item "origin" (.str "")
  if pyIsStrEq classname "NormDevice" then do
    let tags0 ← pyIterate additional_info
    pure { st with device_info := some (identifier, tags0.filter (fun t => !(t = identifier))) }
  else if pyIsStrEq classname "Network" then do
    let n ← pyLen additional_info
    let ip ← if n > 1 then pyIndexNat additional_info 1 else pure (PyVal.str "N/A")
    let fqdn ← if n > 2 then pyIndexNat additional_info 2 else pure (PyVal.str "N/A")
    let customer ← if n > 3 then pyIndexNat additional_info 3 else pure (PyVal.str "N/A")
    pure { st with network_info := some (ip, fqdn, customer) }
  else if pyIsStrEq classname "ComwareInterface" || pyIsStrEq classname "TimosVrtrInterface" then
    pure { st with interfaces := st.interfaces ++ [(identifier, origin, classname)] }
  else if pyIsStrEq classname "ComwareEntPhysical" then do
    let g ← pyGetMethod item "groupname" .none
    if pyIsStrEq g "Chassis" then do
      let n ← pyLen additional_info
      let model ← if n > 1 then pyIndexNat additional_info 1 else pure (PyVal.str "Unknown")
      pure { st with chassis_info := some model }
    else pure st
  else if pyIsStrEq classname "TimosSap" then do
    let n ← pyLen additional_info
    if n ≥ 9 then do
      let service ← if n > 3 then pyIndexNat additional_info 3 else pure (PyVal.str "N/A")
      let vlan ← if n > 8 then pyIndexNat additional_info 8 else pure (PyVal.str "N/A")
      pure { st with connections := st.connections ++ [(identifier, origin, service, vlan)] }
    else pure st
  else pure st

/-- `ResponseFormatter.format_super_search_response`. -/
def format_super_search_response (response : PyVal) : Except String String := do
  let items ← pyGetMethod response "data" (.list .nil)
  if !(pyTruthy items) then pure "No results found for the search term."
  else do
    let itemsL ← pyIterate items
    let st ← itemsL.foldlM ssStep SSState.init
    let devLines ← (match st.device_info with
      | some (hostname, tags) => do
          let chasLine := match st.chassis_info with
            | some model => ["│  Model: " ++ pyStr model]
            | Option.none => []
          let tagLine ← (if tags.isEmpty then pure [] else do
              let j ← pyJoin ", " tags
              pure (["│  Tags: " ++ j]))
          pure (["┌─ 📡 DEVICE OVERVIEW", "│  Device Name: " ++ pyStr hostname]
                ++ chasLine ++ tagLine ++ ["└─"])
      | Option.none => pure [])
    let netLines := match st.network_info with
      | some (ip, fqdn, customer) =>
          ["\n┌─ 🌐 NETWORK INFORMATION", "│  IP Address: " ++ pyStr ip,
           "│  FQDN: " ++ pyStr fqdn, "│  Customer: " ++ pyStr customer, "└─"]
      | Option.none => []
    let intfLines :=
      if st.interfaces.isEmpty then []
      else
        ["\n┌─ 🔌 INTERFACES (" ++ natStr st.interfaces.length ++ " found)"]
        ++ (st.interfaces.take 6).map (fun t => "│  • " ++ pyStr t.1)
        ++ (if st.interfaces.length > 6
            then ["│  ... and " ++ natStr (st.interfaces.length - 6) ++ " more"] else [])
        ++ ["└─"]
    let connLines :=
      if st.connections.isEmpty then []
      else
        ["\n┌─ 🔗 NETWORK CONNECTIONS"]
        ++ (st.connections.map (fun c =>
             ["│  Upstream Router: " ++ pyStr c.2.1,
              "│  Service: " ++ pyStr c.2.2.1,
              "│  SAP: " ++ pyStr c.1 ++ " (VLAN " ++ pyStr c.2.2.2 ++ ")"])).flatten
        ++ ["└─"]
    let meta ← pyGetMethod response "meta" (.dict .nil)
    let metaLines ← (if pyTruthy meta then do
        let qd ← pyGetMethod meta "query_duration" (.str "N/A")
        let oc ← pyGetMethod meta "object_count" (.str "N/A")
        pure ["\n📊 Query completed in " ++ pyStr qd ++ " - " ++ pyStr oc ++ " objects found"]
      else pure [])
    pure (joinSep "\n" (devLines ++ netLines ++ intfLines ++ connLines ++ metaLines))

/-- One line of the COMWARE interface listing. -/
def comwareIntfLine (intf : PyVal) : String :=
  match intf with
  | .dict fs =>
      "  • " ++ pyStr (pyDictGetD fs "name" (.str "Unknown")) ++ ": "
        ++ pyStr (pyDictGetD fs "status" (.str "Unknown"))
        ++ " (IP: " ++ pyStr (pyDictGetD fs "ip_address" (.str "N/A")) ++ ")"
  | v => "  • " ++ pyStr v

/-- Lines for one VRF entry of the COMWARE report. -/
def vrfLines (p : String × PyVal) : Except String (List String) := do
  let base := ["  VRF: " ++ p.1]
  match p.2 with
  | .dict fs => do
      let l1 ← (match fs.lookup "interfaces" with
        | some iv => do
            let sl ← pySliceN iv 3
            let j ← pyJoinVal ", " sl
            pure ["    Interfaces: " ++ j]
        | Option.none => pure [])
      let l2 ← (match fs.lookup "routes" with
        | some _ => do
            let n ← pyLen (pyDictGetD fs "routes" (.list .nil))
            pure ["    Routes: " ++ natStr n ++ " configured"]
        | Option.none => pure [])
      pure (base ++ l1 ++ l2)
  | _ => pure base

/-- Lines of the `for key in detail` residual loop of the COMWARE report. -/
def extraKeyLines (detail : PyVal) : Except String (List String) := do
  let ks ← pyIterate detail
  concatMapE (fun k => do
      let kStr := pyStr k
      if memStr kStr ["hostname", "model", "vendor", "interfaces", "vrfs",
                      "last_discovered", "cpe_details"] then pure []
      else do
        let v ← pyIndex detail kStr
        let line := match v with
          | .dict _ => "  " ++ strTakeN (jsonDumps2 0 v) 300
          | .list _ => "  " ++ strTakeN (jsonDumps2 0 v) 300
          | w => "  " ++ pyStr w
        pure ["\n📌 " ++ upperRepl kStr ++ ":", strRepeat "-" 40, line]) ks

/-- Body lines of the COMWARE branch of `format_device_report`
(the `if detail:` block). -/
def comwareDetailLines (detail : PyVal) : Except String (List String) := do
  let l1 ← (do
    let b ← pyContains "hostname" detail
    if b then do
      let v ← pyGetMethod detail "hostname" .none
      pure ["\n🔹 Device: " ++ pyStr v]
    else pure [])
  let l2 ← (do
    let b ← pyContains "model" detail
    if b then do
      let v ← pyGetMethod detail "model" .none
      pure ["🔹 Model: " ++ pyStr v]
    else pure [])
  let l3 ← (do
    let b ← pyContains "vendor" detail
    if b then do
      let v ← pyGetMethod detail "vendor" .none
      pure ["🔹 Vendor: " ++ pyStr v]
    else pure [])
  let lIntf ← (do
    let b ← pyContains "interfaces" detail
    if b then do
      let interfaces ← pyGetMethod detail "interfaces" (.list .nil)
      let hdr := ["\n📡 INTERFACES:", strRepeat "-" 40]
      match interfaces with
      | .list xs =>
          pure (hdr ++ (xs.toList.take 10).map comwareIntfLine
            ++ (if xs.size > 10
                then ["  ... and " ++ natStr (xs.size - 10) ++ " more interfaces"] else []))
      | v => pure (hdr ++ ["  " ++ pyStr v])
    else pure [])
  let lVrf ← (do
    let b ← pyContains "vrfs" detail
    if b then do
      let vrfs ← pyGetMethod detail "vrfs" (.dict .nil)
      let hdr := ["\n🌐 VRF CONFIGURATION:", strRepeat "-" 40]
      match vrfs with
      | .dict fs => do
          let body ← concatMapPairsE vrfLines (fs.toPairs.take 5)
          pure (hdr ++ body)
      | _ => pure hdr
    else pure [])
  let lDisc ← (do
    let b ← pyContains "last_discovered" detail
    if b then do
      let ld ← pyGetMethod detail "last_discovered" .none
      pure (["\n🕒 LAST DISCOVERED:", strRepeat "-" 40]
        ++ (match ld with
            | .dict fs => fs.toPairs.map (fun p => "  " ++ p.1 ++ ": " ++ pyStr p.2)
            | v => ["  " ++ pyStr v]))
    else pure [])
  let lCpe ← (do
    let b ← pyContains "cpe_details" detail
    if b then do
      let cpe ← pyGetMethod detail "cpe_details" (.dict .nil)
      pure (["\n🔧 CPE DETAILS:", strRepeat "-" 40]
        ++ (match cpe with
            | .dict fs => fs.toPairs.map (fun p => "  " ++ p.1 ++ ": " ++ pyStr p.2)
            | _ => []))
    else pure [])
  let lExtra ← extraKeyLines detail
  pure (l1 ++ l2 ++ l3 ++ lIntf ++ lVrf ++ lDisc ++ lCpe ++ lExtra)

/-- The two DEBUG lines of each TIMOS report section. -/
def debugPair (label : String) (v : PyVal) : List String :=
  ["  DEBUG - " ++ label ++ " type: " ++ pyTypeStr v,
   "  DEBUG - " ++ label ++ " keys: "
     ++ (match v with
         | .dict fs => pyStr (pyList (fs.keys.map PyVal.str))
         | _ => "Not a dict")]

/-- `for i, x in enumerate(v[:5], 1)` lines. -/
def enumLines (v : PyVal) : Except String (List String) := do
  let sl ← pySliceN v 5
  let xs ← pyIterate sl
  pure (xs.enum.map (fun p => "  " ++ natStr (p.1 + 1) ++ ". " ++ pyStr p.2))

/-- `for x in v[:5]` bullet lines. -/
def bulletLines (pre : String) (v : PyVal) : Except String (List String) := do
  let sl ← pySliceN v 5
  let xs ← pyIterate sl
  pure (xs.map (fun x => pre ++ pyStr x))

/-- The device-information section of the TIMOS report. -/
def timosDevInfoLines (dev_data : PyVal) : Except String (List String) := do
  let hdr := ["\n📡 DEVICE INFORMATION:", strRepeat "-" 40] ++ debugPair "device_info" dev_data
  match dev_data with
  | .dict fs =>
      if fs.hasKey "data" then do
        let device_list := pyDictGetD fs "data" (.list .nil)
        if pyTruthy device_list then do
          let device ← (match device_list with
            | .list _ => pyIndexNat device_list 0
            | v => pure v)
          match device with
          | .dict dfs => do
              let tagsJ ← pyJoinVal ", " (pyDictGetD dfs "tags" (.list .nil))
              pure (hdr ++
                ["  Hostname: " ++ pyStr (pyDictGetD dfs "hostname" (.str "N/A")),
                 "  Platform: " ++ pyStr (pyDictGetD dfs "platform" (.str "N/A")),
                 "  Room: " ++ pyStr (pyDictGetD dfs "room" (.str "N/A")),
                 "  Rack Location: " ++ pyStr (pyDictGetD dfs "rack_location" (.str "N/A")),
                 "  Tags: " ++ tagsJ])
          | _ => .error "AttributeError: object has no attribute get"
        else pure hdr
      else
        pure (hdr ++ (fs.toPairs.filter (fun p => !(p.1 = "error"))).map
          (fun p => "  " ++ p.1 ++ ": " ++ pyStr p.2))
  | v => pure (hdr ++ ["  Raw data: " ++ pyStr v])

/-- The SAPs section of the TIMOS report. -/
def timosSapsLines (saps_data : PyVal) : Except String (List String) := do
  let hdr := ["\n🔗 SERVICE ACCESS POINTS (SAPs):", strRepeat "-" 40] ++ debugPair "saps" saps_data
  match saps_data with
  | .dict fs =>
      if fs.hasKey "data" then do
        let sap_list := pyDictGetD fs "data" (.list .nil)
        if pyTruthy sap_list then do
          let n ← pyLen sap_list
          let e ← enumLines sap_list
          pure (hdr ++ ["  Total SAPs: " ++ natStr n] ++ e)
        else pure (hdr ++ ["  No SAPs found"])
      else if !(pyTruthy (pyDictGetD fs "error" .none)) then
        pure (hdr ++ ["  Raw SAPs data: " ++ pyStr saps_data])
      else
        pure (hdr ++ ["  SAPs Error: " ++ pyStr (pyDictGetD fs "error" .none)])
  | v =>
      match v with
      | .list _ => do
          let n ← pyLen v
          let e ← enumLines v
          pure (hdr ++ ["  Total SAPs: " ++ natStr n] ++ e)
      | _ => pure (hdr ++ ["  Raw SAPs data: " ++ pyStr v])

/-- The routes section of the TIMOS report. -/
def timosRoutesLines (routes_data : PyVal) : Except String (List String) := do
  let hdr := ["\n🛤️ ROUTING INFORMATION:", strRepeat "-" 40] ++ debugPair "routes" routes_data
  match routes_data with
  | .dict fs =>
      if fs.hasKey "data" then do
        let route_list := pyDictGetD fs "data" (.list .nil)
        let n ← pyLen route_list
        let b ← bulletLines "    • " route_list
        pure (hdr ++ ["  Total Routes: " ++ natStr n] ++ b)
      else if !(pyTruthy (pyDictGetD fs "error" .none)) then
        pure (hdr ++ ["  Raw routes data: " ++ pyStr routes_data])
      else
        pure (hdr ++ ["  Routes data: " ++ pyStr routes_data])
  | v => pure (hdr ++ ["  Routes data: " ++ pyStr v])

/-- The interfaces section of the TIMOS report. -/
def timosIntfLines (intf_data : PyVal) : Except String (List String) := do
  let hdr := ["\n🔌 NETWORK INTERFACES:", strRepeat "-" 40] ++ debugPair "interfaces" intf_data
  match intf_data with
  | .dict fs =>
      if fs.hasKey "data" then do
        let intf_list := pyDictGetD fs "data" (.list .nil)
        let n ← pyLen intf_list
        let b ← bulletLines "    • " intf_list
        pure (hdr ++ ["  Total Interfaces: " ++ natStr n] ++ b)
      else pure (hdr ++ ["  Interfaces data: " ++ pyStr intf_data])
  | .list _ => do
      let n ← pyLen intf_data
      let b ← bulletLines "    • " intf_data
      pure (hdr ++ ["  Total Interfaces: " ++ natStr n] ++ b)
  | v => pure (hdr ++ ["  Interfaces data: " ++ pyStr v])

/-- The subscribers section of the TIMOS report. -/
def timosSubsLines (sub_data : PyVal) : Except String (List String) := do
  let hdr := ["\n👥 SUBSCRIBER INFORMATION:", strRepeat "-" 40] ++ debugPair "subscribers" sub_data
  match sub_data with
  | .dict fs =>
      if fs.hasKey "data" then do
        let sub_list := pyDictGetD fs "data" (.list .nil)
        let n ← pyLen sub_list
        let b ← bulletLines "    • " sub_list
        pure (hdr ++ ["  Total Subscribers: " ++ natStr n] ++ b)
      else pure (hdr ++ ["  Subscribers data: " ++ pyStr sub_data])
  | .list _ => do
      let n ← pyLen sub_data
      let b ← bulletLines "    • " sub_data
      pure (hdr ++ ["  Total Subscribers: " ++ natStr n] ++ b)
  | v => pure (hdr ++ ["  Subscribers data: " ++ pyStr v])

/-- `ResponseFormatter.format_device_report`. -/
def format_device_report (data : PyVal) : Except String String := do
  let report_type ← pyGetMethod data "report_type" .none
  if pyIsStrEq report_type "comware_ce" then do
    let detail ← pyGetMethod data "comware_detail" (.dict .nil)
    let body ← if pyTruthy detail then comwareDetailLines detail else pure []
    pure (joinSep "\n" (["📋 COMWARE CE DEVICE DETAILED REPORT", strRepeat "=" 60] ++ body))
  else if pyIsStrEq report_type "timos_core" then do
    let keysStr ← (match data with
      | .dict fs => pure (pyStr (pyList (fs.keys.map PyVal.str)))
      | _ => Except.error "AttributeError: object has no attribute keys")
    let hdr := ["📋 TIMOS CORE DEVICE DETAILED REPORT", strRepeat "=" 60,
                "\n🔍 DEBUG - Available data keys: " ++ keysStr]
    let s1 ← (do
      let b ← pyContains "device_info" data
      if b then do
        let v ← pyGetMethod data "device_info" (.dict .nil)
        timosDevInfoLines v
      else pure [])
    let s2 ← (do
      let b ← pyContains "saps" data
      if b then do
        let v ← pyGetMethod data "saps" (.dict .nil)
        timosSapsLines v
      else pure [])
    let s3 ← (do
      let b ← pyContains "routes" data
      if b then do
        let v ← pyGetMethod data "routes" (.dict .nil)
        timosRoutesLines v
      else pure [])
    let s4 ← (do
      let b ← pyContains "interfaces" data
      if b then do
        let v ← pyGetMethod data "interfaces" (.dict .nil)
        timosIntfLines v
      else pure [])
    let s5 ← (do
      let b ← pyContains "subscribers" data
      if b then do
        let v ← pyGetMethod data "subscribers" (.dict .nil)
        timosSubsLines v
      else pure [])
    pure (joinSep "\n" (hdr ++ s1 ++ s2 ++ s3 ++ s4 ++ s5))
  else pure (joinSep "\n" [])

/-- `ResponseFormatter.format_observation`: dispatch on the result success
flag and the shape of its `data`. -/
def format_observation (result : PyVal) : Except String String := do
  let suc ← pyGetMethod result "success" .none
  if !(pyTruthy suc) then do
    let err ← pyGetMethod result "error" .none
    pure ("Failed to retrieve data: " ++ pyStr err)
  else do
    let data ← pyGetMethod result "data" (.dict .nil)
    match data with
    | .dict fs =>
        if fs.hasKey "report_type" then format_device_report data
        else if fs.hasKey "data" then format_super_search_response data
        else format_device_data data
    | .list xs =>
        if xs.size = 0 then pure "No devices found matching the criteria."
        else do
          let obs ← listMapE format_device_data (xs.toList.take 5)
          let o := joinSep "\n" obs
          pure (if xs.size > 5
                then o ++ "\n... and " ++ natStr (xs.size - 5) ++ " more devices"
                else o)
    | v => format_device_data v

/-! ## `NormTools` (src/tools/norm_tools.py) and
`GetDeviceReport` (src/tools/get_device_report.py)

`requests.get` is modelled by an oracle from URL to outcome; request
headers are configuration only and are not modelled.  `response.json()`
failures are not modelled (no claim exercises them). -/

/-- Outcome of one `requests.get`: HTTP status with parsed JSON body, or a
raised `requests.exceptions.RequestException` carrying `str(e)`. -/
inductive HttpResp where
  | ok (status : Int) (body : PyVal)
  | exc (msg : String)

/-- The configured `NormAPIConfig.base_url`. -/
def normBaseUrl : String := "https://normapi.prd.inet.telenet.be:9123"

/-- `str(e)` of the `HTTPError` raised by `response.raise_for_status()`. -/
def httpErrStr (status : Int) (url : String) : String :=
  intPyStr status ++ " Error for url: " ++ url

/-- `.lower()` each tag (`[tag.lower() for tag in tags]`); `AttributeError`
on a non-string tag. -/
def pyLowerListE : List PyVal → Except String (List PyVal)
  | [] => .ok []
  | .str s :: xs => do
      let r ← pyLowerListE xs
      pure (.str (pyLower s) :: r)
  | _ :: _ => .error "AttributeError: object has no attribute lower"

/-- Membership of a value in a list of values (Python `in`). -/
def memPyVal (v : PyVal) (xs : List PyVal) : Bool := xs.any (fun x => x = v)

/-- The failure dict `{"success": False, "error": e, "hostname": hostname}`. -/
def normFailure (e : String) (hostname : PyVal) : PyVal :=
  pyDict [("success", .bool false), ("error", .str e), ("hostname", hostname)]

/-- One endpoint fetch of the TIMOS loop of `NormTools.get_device_report`:
`results[name] = response.json()` on HTTP 200, `{"error": f"HTTP {status}"}`
on another status, `{"error": str(e)}` when the request raised (the inner
`except Exception` catches everything). -/
def timosEndpointFetch (http : String → HttpResp) (url : String) : PyVal :=
  match http url with
  | .ok status body =>
      if status = 200 then body
      else pyDict [("error", .str ("HTTP " ++ intPyStr status))]
  | .exc m => pyDict [("error", .str m)]

/-- `NormTools.get_device_report(hostname, tags)`.  The outer
`except requests.exceptions.RequestException` catches only HTTP errors of
the COMWARE branch; a `TypeError`/`AttributeError` from the tag handling or
from `", ".join(tags)` propagates to the caller (`.error`). -/
def NormTools.get_device_report (http : String → HttpResp)
    (hostname : PyVal) (tags : PyVal) : Except String PyVal := do
  let tagsL ← pyIterate tags
  let tags_lower ← pyLowerListE tagsL
  if memPyVal (.str "ce") tags_lower && memPyVal (.str "comware") tags_lower then
    let url := normBaseUrl ++ "/norm_services/v1/view/comware/" ++ pyStr hostname ++ "/detail"
    match http url with
    | .exc m => pure (normFailure m hostname)
    | .ok status body =>
        if 400 ≤ status then pure (normFailure (httpErrStr status url) hostname)
        else
          pure (pyDict [("success", .bool true),
            ("data", pyDict [("comware_detail", body), ("report_type", .str "comware_ce")]),
            ("hostname", hostname), ("tags", tags)])
  else if memPyVal (.str "timos") tags_lower && memPyVal (.str "core") tags_lower then
    let h := pyStr hostname
    let results := pyDict
      [("saps", timosEndpointFetch http
          (normBaseUrl ++ "/norm_services/v1/view/timos/" ++ h ++ "/saps")),
       ("routes", timosEndpointFetch http
          (normBaseUrl ++ "/norm_services/v1/view/timos/" ++ h ++ "/routes")),
       ("device_info", timosEndpointFetch http
          (normBaseUrl ++ "/devicemanager/v1/device?hostname=^" ++ h ++ "$")),
       ("subscribers", timosEndpointFetch http
          (normBaseUrl ++ "/norm_services/v1/view/timos/" ++ h ++ "/subscribers")),
       ("interfaces", timosEndpointFetch http
          (normBaseUrl ++ "/norm_services/v1/view/timos/" ++ h ++ "/interfaces")),
       ("report_type", .str "timos_core")]
    pure (pyDict [("success", .bool true), ("data", results),
                  ("hostname", hostname), ("tags", tags)])
  else do
    let joined ← pyJoinVal ", " tags
    pure (normFailure ("No specific report available for device with tags: " ++ joined) hostname)

/-- `NormTools.get_device_info(hostname)`: one `super_search` request; a
`RequestException` becomes a failure dict; the debug log line evaluates
`data.get("meta", {}).get("object_count", 0)`, which raises on a non-dict
body or a non-dict `meta`. -/
def NormTools.get_device_info (http : String → HttpResp)
    (hostname : PyVal) : Except String PyVal := do
  let url := normBaseUrl ++ "/norm_services/v1/search/super_search?search_term=" ++ pyStr hostname
  match http url with
  | .exc m => pure (normFailure m hostname)
  | .ok status body =>
      if 400 ≤ status then pure (normFailure (httpErrStr status url) hostname)
      else do
        let meta ← pyGetMethod body "meta" (.dict .nil)
        let _ ← pyGetMethod meta "object_count" (.int 0)
        pure (pyDict [("success", .bool true), ("data", body), ("hostname", hostname)])

/-- `GetDeviceReport.execute(hostname, tags)` — the standalone tool class.
Its final `except Exception` means it never raises: every internal
exception becomes `{"success": False, "error": str(e), "hostname": ...}`. -/
def GetDeviceReport.execute (http : String → HttpResp)
    (hostname : PyVal) (tags : PyVal) : PyVal :=
  let inner : Except String PyVal := do
    let tagsL ← pyIterate tags
    let tags_lower ← pyLowerListE tagsL
    if memPyVal (.str "ce") tags_lower && memPyVal (.str "comware") tags_lower then
      let url := normBaseUrl ++ "/norm_services/v1/view/comware/" ++ pyStr hostname ++ "/detail"
      match http url with
      | .exc m => .error m
      | .ok status body =>
          if status = 409 then
            pure (normFailure ("Device type mismatch for " ++ pyStr hostname
              ++ ". Try different tags: [\x27TIMOS\x27, \x27CORE\x27] or [\x27CE\x27, \x27COMWARE\x27]") hostname)
          else if status = 404 then
            pure (normFailure ("Device " ++ pyStr hostname ++ " not found in the COMWARE category") hostname)
          else if 400 ≤ status then
            pure (normFailure ("HTTP Error " ++ intPyStr status ++ ": " ++ httpErrStr status url) hostname)
          else
            pure (pyDict [("success", .bool true), ("data", body),
                          ("hostname", hostname), ("device_type", .str "COMWARE")])
    else if memPyVal (.str "timos") tags_lower && memPyVal (.str "core") tags_lower then
      let url := normBaseUrl ++ "/norm_services/v1/view/timos/" ++ pyStr hostname ++ "/detail"
      match http url with
      | .exc m => .error m
      | .ok status body =>
          if status = 409 then
            pure (normFailure ("Device type mismatch for " ++ pyStr hostname
              ++ ". Try different tags: [\x27TIMOS\x27, \x27CORE\x27] or [\x27CE\x27, \x27COMWARE\x27]") hostname)
          else if status = 404 then
            pure (normFailure ("Device " ++ pyStr hostname ++ " not found in the TIMOS category") hostname)
          else if 400 ≤ status then
            pure (normFailure ("HTTP Error " ++ intPyStr status ++ ": " ++ httpErrStr status url) hostname)
          else
            pure (pyDict [("success", .bool true), ("data", body),
                          ("hostname", hostname), ("device_type", .str "TIMOS")])
    else
      pure (normFailure ("Unknown device type for tags: " ++ pyStr tags
        ++ ". Use [\x27TIMOS\x27, \x27CORE\x27] or [\x27CE\x27, \x27COMWARE\x27]") hostname)
  match inner with
  | .ok v => v
  | .error m => normFailure m hostname

/-! ## `ToolManager.execute_tool` and `ReActAgent._execute_tool` -/

/-- Keyword unpacking `f(**arguments)` for a one-parameter function:
`arguments` must be a mapping with exactly the expected key. -/
def kwargs1 (args : PyVal) (k : String) : Except String PyVal :=
  match args with
  | .dict fs =>
      (match fs.lookup k with
       | some v => if fs.size = 1 then .ok v
                   else .error "TypeError: got an unexpected keyword argument"
       | Option.none => .error "TypeError: missing a required keyword argument")
  | _ => .error "TypeError: argument after ** must be a mapping"

/-- Keyword unpacking `f(**arguments)` for a two-parameter function. -/
def kwargs2 (args : PyVal) (k1 k2 : String) : Except String (PyVal × PyVal) :=
  match args with
  | .dict fs =>
      (match fs.lookup k1, fs.lookup k2 with
       | some v1, some v2 =>
           if fs.size = 2 then .ok (v1, v2)
           else .error "TypeError: got an unexpected keyword argument"
       | _, _ => .error "TypeError: missing a required keyword argument")
  | _ => .error "TypeError: argument after ** must be a mapping"

/-- The `except Exception` of `ToolManager.execute_tool`: an exception while
calling the tool becomes the failure dict `{"success": False, "error":
f"Error executing tool: {e}"}`. -/
def collapseToolError (r : Except String PyVal) : PyVal :=
  match r with
  | .ok v => v
  | .error m => pyDict [("success", .bool false), ("error", .str ("Error executing tool: " ++ m))]

/-- `ToolManager.execute_tool(tool_call)`: dispatch on the tool name; the
underlying `NormTools` capabilities are the parameters `norm_info` and
`norm_report` (every theorem quantifies over them).  The two `.get` calls
happen before the `try`, so they can raise to the caller. -/
def ToolManager.execute_tool (norm_info : PyVal → Except String PyVal)
    (norm_report : PyVal → PyVal → Except String PyVal) (tool_call : PyVal) :
    Except String PyVal := do
  let tool_name ← pyGetMethod tool_call "name" .none
  let arguments ← pyGetMethod tool_call "arguments" (.dict .nil)
  if pyIsStrEq tool_name "get_device_info" then
    pure (collapseToolError (do
      let h ← kwargs1 arguments "hostname"
      norm_info h))
  else if pyIsStrEq tool_name "get_device_report" then
    pure (collapseToolError (do
      let p ← kwargs2 arguments "hostname" "tags"
      norm_report p.1 p.2))
  else
    pure (pyDict [("success", .bool false),
      ("error", .str ("Unknown tool \x27" ++ pyStr tool_name ++ "\x27"))])

/-- `ReActAgent._execute_tool(tool_call)`: execute, then either format the
observation (which can raise) or render the failure text. -/
def ReActAgent.execute_tool_obs (norm_info : PyVal → Except String PyVal)
    (norm_report : PyVal → PyVal → Except String PyVal) (tool_call : PyVal) :
    Except String String := do
  let result ← ToolManager.execute_tool norm_info norm_report tool_call
  let suc ← pyIndex result "success"
  if pyTruthy suc then format_observation result
  else do
    let err ← pyGetMethod result "error" (.str "Unknown error")
    pure ("Tool execution failed: " ++ pyStr err)

/-! ## `ReActAgent.process_query` (src/react_agent.py) -/

/-- A chat message. -/
structure Message where
  role : String
  content : String
deriving DecidableEq, Repr

/-- `self.last_device_info`: the hostname argument of the last executed
`get_device_info` call and its observation text. -/
structure LastDeviceInfo where
  hostname : PyVal
  observation : String
deriving DecidableEq, Repr

/-- The external capabilities of one agent: the chat-completion backend
(`self.client.chat.completions.create` returning the message content, or a
raised exception), the two `NormTools` capabilities behind
`ToolManager.execute_tool`, and `hashlib.md5(...).hexdigest()[:8]`.
Theorems quantify over all of them. -/
structure Env where
  llm : List Message → Except String String
  norm_info : PyVal → Except String PyVal
  norm_report : PyVal → PyVal → Except String PyVal
  md5trunc : String → String

/-- The affirmation set of the `"yes"` shortcut (line 162). -/
def affirmations : List String := ["yes", "y", "sure", "ok", "okay", "yep", "yeah"]

/-- Lines 166-168: an assistant history entry that mentions
"detailed report" (case-insensitively) and contains a question mark. -/
def isReportOffer (m : Message) : Bool :=
  m.role = "assistant" && strContainsB (pyLower m.content) "detailed report"
    && strContainsB m.content "?"

/-- The synthetic user message appended by the affirmation shortcut
(lines 170-174); its wording depends only on `last_device_info`. -/
def affirmSyntheticText (user_query : String) (ldi : Option LastDeviceInfo) : String :=
  match ldi with
  | some d =>
      user_query ++ " - User confirmed they want the detailed report for " ++ pyStr d.hostname
        ++ ". Extract the device tags from the conversation history and call get_device_report with hostname=\x27"
        ++ pyStr d.hostname ++ "\x27 and the appropriate tags."
  | Option.none =>
      user_query ++ " - User confirmed they want the detailed report. Look at the conversation history to find the device hostname and tags from the most recent device info query, then call get_device_report with those exact details."

/-- Lines 154-175: the outbound message list — the freshly built system
prompt (a constant string, here the parameter `system_prompt`), the last 10
entries of the conversation history (which already contains the appended
user query), then possibly the affirmation-shortcut message.  The source
scans the history in reverse for the first entry satisfying `isReportOffer`
and appends a message that does not depend on the entry found. -/
def buildOutbound (system_prompt : String) (history : List Message)
    (user_query : String) (ldi : Option LastDeviceInfo) : List Message :=
  let recent := if history.length > 10 then history.drop (history.length - 10) else history
  let msgs := ⟨"system", system_prompt⟩ :: recent
  if memStr (pyStrip (pyLower user_query)) affirmations then
    match history.reverse.find? isReportOffer with
    | some _ => msgs ++ [⟨"user", affirmSyntheticText user_query ldi⟩]
    | Option.none => msgs
  else msgs

/-- Per-query loop state (the locals of `process_query`). -/
structure LoopSt where
  messages : List Message
  history : List Message
  ldi : Option LastDeviceInfo
  context : String
  ledger : List String
  last_response : String
  identical_count : Nat
  info_done : Bool
  report_done : Bool
deriving Repr

/-- An in-loop terminal return (stall fallback or final answer); the
executed-tool cache never changes on these paths. -/
structure RetData where
  answer : String
  history : List Message
  context : String
deriving Repr

/-- Result of a query, instrumented: `exec_trace` is the sequence of tool
calls passed to `ToolManager.execute_tool` from the current point on,
`resp_trace` the model responses received, `llm_calls` the number of
backend calls, and `caught` the exception message when the run ended in
the `except` handler of the loop. -/
structure QueryResult where
  answer : String
  history : List Message
  ldi : Option LastDeviceInfo
  context : String
  exec_trace : List PyVal
  resp_trace : List String
  llm_calls : Nat
  caught : Option String
deriving Repr

/-- Lines 234-246: the first tool call that is not in the ledger, is not a
repeated `get_device_info`, and does not come after `get_device_report`
(the `tool_call["name"]` subscription is evaluated only when
`device_info_executed` is set, mirroring the short-circuit). -/
def pickEligible (env : Env) (ledger : List String) (info_done report_done : Bool) :
    List PyVal → Except String (Option (PyVal × String))
  | [] => .ok Option.none
  | tc :: rest => do
      let tid ← generate_tool_id env.md5trunc tc
      if memStr tid ledger then pickEligible env ledger info_done report_done rest
      else do
        let isInfoRepeat ← (if info_done then do
            let v ← pyIndex tc "name"
            pure (pyIsStrEq v "get_device_info")
          else pure false)
        if isInfoRepeat then pickEligible env ledger info_done report_done rest
        else if report_done then pickEligible env ledger info_done report_done rest
        else pure (some (tc, tid))

/-- `any(generate_tool_id(tc) in tool_executions for tc in calls)`
(line 213, short-circuiting). -/
def anyIdExecuted (env : Env) (ledger : List String) : List PyVal → Except String Bool
  | [] => .ok false
  | tc :: rest => do
      let tid ← generate_tool_id env.md5trunc tc
      if memStr tid ledger then pure true else anyIdExecuted env ledger rest

/-- `all(generate_tool_id(tc) in tool_executions for tc in calls)`
(lines 281-284, short-circuiting). -/
def allIdsExecuted (env : Env) (ledger : List String) : List PyVal → Except String Bool
  | [] => .ok true
  | tc :: rest => do
      let tid ← generate_tool_id env.md5trunc tc
      if memStr tid ledger then allIdsExecuted env ledger rest else pure false

/-- Line 216 steering text. -/
def stallSteerText : String := "You already executed this tool. Please provide your Final Answer based on the observation you received."

/-- Line 269 user turn after `get_device_info`. -/
def afterInfoObsText (obs : String) : String := obs ++ "\n\nBased on this observation, provide your Final Answer with the device information and ask if the user wants a detailed report. Do NOT call any more tools. Start your response with \x27Final Answer:\x27"

/-- Line 271 user turn after `get_device_report`. -/
def afterReportObsText (obs : String) : String := obs ++ "\n\nYou have successfully retrieved the detailed report. Now provide your Final Answer summarizing the key information from this report in a user-friendly format. Do NOT call any additional tools. Do NOT ask any more questions. STOP after providing the Final Answer. Start your response with \x27Final Answer:\x27"

/-- Line 289 steering text. -/
def allExecReportText : String := "You already executed get_device_report. Please provide your Final Answer with the detailed report information. Do NOT call any more tools. Start with \x27Final Answer:\x27"

/-- Line 291 steering text. -/
def allExecInfoText : String := "You already executed get_device_info. Please provide your Final Answer with the device information and ask if the user wants a detailed report. Start with \x27Final Answer:\x27"

/-- Line 293 steering text. -/
def allExecGenericText : String := "All tools have been executed. Please provide your Final Answer based on the observations received."

/-- Line 311 steering text. -/
def mockObsText : String := "I see you\x27ve planned the actions. Now execute the first tool call to get real observations."

/-- Line 316 steering text. -/
def continueReportText : String := "You already have the detailed report. Please provide your Final Answer summarizing the report information. Do NOT call any more tools. Start with \x27Final Answer:\x27"

/-- Line 318 steering text. -/
def continueInfoText : String := "You already have the device information. Please provide your Final Answer and ask if the user wants a detailed report. Start with \x27Final Answer:\x27"

/-- Line 320 steering text. -/
def continueGenericText : String := "Please continue with the next action or provide your Final Answer based on the information gathered."

/-- Line 219 fallback prefix. -/
def stuckPrefix : String := "The agent got stuck in a reasoning loop. Here\x27s the context gathered:\n"

/-- Line 324 handler prefix. -/
def errorPrefix : String := "I encountered an error while processing your request: "

/-- Line 329 budget-exhausted prefix. -/
def timeoutPrefix : String := "I\x27ve reached the maximum number of reasoning steps. Based on what I\x27ve gathered so far, here\x27s what I found:\n"

/-- Lines 297-300: `re.search(r"Final Answer:\s*(.*)", r, re.DOTALL)` then
`.group(1).strip()` — everything after the first marker, stripped (the
greedy `\s*` plus the final `strip` make this the stripped tail). -/
def extractFinalAnswer (r : String) : Option String :=
  (strAfterFirst r "Final Answer:").map pyStrip

/-- Lines 279-320: no new tool executed this round. -/
def noToolBranch (env : Env) (r : String) (st : LoopSt) (tcs : List PyVal) :
    Except String (RetData ⊕ LoopSt) := do
  let allExec ← (match tcs with
    | [] => pure false
    | _ => allIdsExecuted env st.ledger tcs)
  if allExec then
    let msg := if st.report_done then allExecReportText
               else if st.info_done then allExecInfoText
               else allExecGenericText
    pure (.inr { st with messages := st.messages ++ [⟨"user", msg⟩] })
  else
    match (if strContainsB r "Final Answer:" then extractFinalAnswer r else Option.none) with
    | some fa =>
        pure (.inl ⟨fa, st.history ++ [⟨"assistant", fa⟩], st.context⟩)
    | Option.none =>
        if strContainsB r "Observation:" && strContainsB r "<tool_call>" then
          pure (.inr { st with
            messages := st.messages ++ [⟨"assistant", r⟩, ⟨"user", mockObsText⟩] })
        else
          let msg := if st.report_done then continueReportText
                     else if st.info_done then continueInfoText
                     else continueGenericText
          pure (.inr { st with
            messages := st.messages ++ [⟨"assistant", r⟩, ⟨"user", msg⟩] })

/-- Lines 228-320: extract all tool calls, execute the first eligible one
(recording it in the ledger, setting the terminal flags, updating
`last_device_info`, and appending the observation turn), otherwise take the
no-tool branches.  The state received already has `last_response` and
`current_context` updated (lines 225-226). -/
def afterExtract (env : Env) (r : String) (st : LoopSt) :
    Option PyVal × Except String (RetData ⊕ LoopSt) :=
  match find_all_tool_calls r with
  | .error e => (Option.none, .error e)
  | .ok tcs =>
    match pickEligible env st.ledger st.info_done st.report_done tcs with
    | .error e => (Option.none, .error e)
    | .ok (some (tc, tid)) =>
        (some tc,
          match ReActAgent.execute_tool_obs env.norm_info env.norm_report tc with
          | .error e => .error e
          | .ok observation =>
            let observation_text := "Observation: " ++ observation
            let ctx := st.context ++ "\n" ++ observation_text ++ "\n"
            let ledger := st.ledger ++ [tid]
            match pyIndex tc "name" with
            | .error e => .error e
            | .ok nameV =>
              if pyIsStrEq nameV "get_device_info" then
                match pyGetMethod tc "arguments" (.dict .nil) with
                | .error e => .error e
                | .ok argsV =>
                  match pyGetMethod argsV "hostname" .none with
                  | .error e => .error e
                  | .ok hostV =>
                    .ok (.inr { st with
                      context := ctx, ledger := ledger, info_done := true,
                      ldi := some ⟨hostV, observation_text⟩,
                      messages := st.messages
                        ++ [⟨"assistant", r⟩, ⟨"user", afterInfoObsText observation_text⟩] })
              else if pyIsStrEq nameV "get_device_report" then
                .ok (.inr { st with
                  context := ctx, ledger := ledger, report_done := true,
                  messages := st.messages
                    ++ [⟨"assistant", r⟩, ⟨"user", afterReportObsText observation_text⟩] })
              else
                .ok (.inr { st with
                  context := ctx, ledger := ledger,
                  messages := st.messages
                    ++ [⟨"assistant", r⟩, ⟨"user", observation_text⟩] }))
    | .ok Option.none => (Option.none, noToolBranch env r st tcs)

/-- Lines 225-320: record the response (`last_response`, `current_context`)
and process it. -/
def bodyMain (env : Env) (r : String) (st : LoopSt) :
    Option PyVal × Except String (RetData ⊕ LoopSt) :=
  afterExtract env r { st with last_response := r, context := st.context ++ r ++ "\n" }

/-- Lines 207-320: the identical-response guard, then the rest of the body.
On a stall with an already-executed tool a steering message is appended and
the body falls through; on a stall with no executed tool the query returns
the stuck-in-loop fallback. -/
def loopBody (env : Env) (r : String) (st : LoopSt) :
    Option PyVal × Except String (RetData ⊕ LoopSt) :=
  if pyStrip r = pyStrip st.last_response then
    if 2 ≤ st.identical_count + 1 then
      match find_all_tool_calls r with
      | .error e => (Option.none, .error e)
      | .ok tcs =>
        match anyIdExecuted env st.ledger tcs with
        | .error e => (Option.none, .error e)
        | .ok true =>
            bodyMain env r
              { st with
                  identical_count := st.identical_count + 1
                  messages := st.messages ++ [⟨"user", stallSteerText⟩] }
        | .ok false =>
            (Option.none, .ok (.inl ⟨stuckPrefix ++ st.context,
              st.history ++ [⟨"assistant", stuckPrefix ++ st.context⟩], st.context⟩))
    else
      bodyMain env r { st with identical_count := st.identical_count + 1 }
  else
    bodyMain env r { st with identical_count := 0 }

/-- The `while iterations < max_iterations` loop, by fuel recursion on the
remaining iterations; traces, call counts and `caught` are those of the run
from this state on. -/
def loopRun (env : Env) : Nat → LoopSt → QueryResult
  | 0, st =>
      let msg := timeoutPrefix ++ st.context
      { answer := msg, history := st.history ++ [⟨"assistant", msg⟩], ldi := st.ldi,
        context := st.context, exec_trace := [], resp_trace := [], llm_calls := 0,
        caught := Option.none }
  | fuel + 1, st =>
      match env.llm st.messages with
      | .error e =>
          let msg := errorPrefix ++ e
          { answer := msg, history := st.history ++ [⟨"assistant", msg⟩], ldi := st.ldi,
            context := st.context, exec_trace := [], resp_trace := [], llm_calls := 1,
            caught := some e }
      | .ok r =>
          match loopBody env r st with
          | (ev, .error e) =>
              let msg := errorPrefix ++ e
              { answer := msg, history := st.history ++ [⟨"assistant", msg⟩], ldi := st.ldi,
                context := st.context, exec_trace := ev.toList, resp_trace := [r],
                llm_calls := 1, caught := some e }
          | (ev, .ok (.inl rd)) =>
              { answer := rd.answer, history := rd.history, ldi := st.ldi,
                context := rd.context, exec_trace := ev.toList, resp_trace := [r],
                llm_calls := 1, caught := Option.none }
          | (ev, .ok (.inr st2)) =>
              let rec1 := loopRun env fuel st2
              { rec1 with
                  exec_trace := ev.toList ++ rec1.exec_trace
                  resp_trace := r :: rec1.resp_trace
                  llm_calls := rec1.llm_calls + 1 }

/-- `ReActAgent.process_query`: append the user query to the conversation
history, build the outbound messages (with the affirmation shortcut), reset
the per-query state, and run the loop for `max_iterations` rounds. -/
def ReActAgent.process_query (env : Env) (system_prompt : String)
    (max_iterations : Nat) (history0 : List Message) (ldi0 : Option LastDeviceInfo)
    (user_query : String) : QueryResult :=
  let history := history0 ++ [⟨"user", user_query⟩]
  loopRun env max_iterations
    { messages := buildOutbound system_prompt history user_query ldi0,
      history := history, ldi := ldi0, context := "", ledger := [],
      last_response := "", identical_count := 0, info_done := false,
      report_done := false }

/-! ## Helper definitions for the theorem statements -/

/-- Does a tool call name `get_device_report` (total form of the
`tool_call["name"] == "get_device_report"` check)? -/
def nameIsReport (tc : PyVal) : Bool :=
  match pyIndex tc "name" with
  | .ok v => pyIsStrEq v "get_device_report"
  | .error _ => false

/-- Total form of `generate_tool_id` (the raising case yields `""`; every
executed tool call has a successful id). -/
def idOf (env : Env) (tc : PyVal) : String :=
  match generate_tool_id env.md5trunc tc with
  | .ok s => s
  | .error _ => ""

/-- The deduplication key of a tool call: its `name` and `arguments`
values (with the source defaults), when the call is a dict. -/
def toolCallKey (tc : PyVal) : Option (PyVal × PyVal) :=
  match tc with
  | .dict fs => some (pyDictGetD fs "name" .none, pyDictGetD fs "arguments" (pyDict []))
  | _ => Option.none

/-- The outbound message list without the affirmation shortcut: the system
prompt plus the last 10 history entries. -/
def baseOutbound (system_prompt : String) (history : List Message) : List Message :=
  ⟨"system", system_prompt⟩ ::
    (if history.length > 10 then history.drop (history.length - 10) else history)

/-- The most recent assistant entry of a history (used to state what the
spec calls "the most recent assistant message"). -/
def lastAssistant (history : List Message) : Option Message :=
  history.reverse.find? (fun m => m.role == "assistant")

/-- Does `s` end with `pat`? -/
def endsWithStr (s pat : String) : Bool :=
  startsWithSeq s.data.reverse pat.data.reverse

/-! ## Concrete instances for the counterexamples and witnesses -/

/-- A backend that always answers with a final answer; tools unused. -/
def envFinal : Env :=
  { llm := fun _ => .ok "Thought: x\nFinal Answer: The device is up.\n",
    norm_info := fun _ => .ok PyVal.none,
    norm_report := fun _ _ => .ok PyVal.none,
    md5trunc := fun s => s }

/-- Responses indexed by the outbound message count: two identical answers,
then a distinct one. -/
def respAt (n : Nat) : String := if n ≤ 4 then "A" else "B"

/-- A backend that answers "A", "A", "B" over the three rounds of a query
with empty prior history. -/
def envTwoSame : Env := { envFinal with llm := fun ms => .ok (respAt ms.length) }

/-- A backend that always answers the same tool-free text. -/
def envConstA : Env := { envFinal with llm := fun _ => .ok "Thought: hmm" }

/-- A model response carrying one `get_device_info` tool call. -/
def toolRespInfo : String := "Thought: t\nAction:\n<tool_call>\n\x7b\"name\": \"get_device_info\", \"arguments\": \x7b\"hostname\": \"X\"\x7d\x7d\n</tool_call>"

/-- A backend that always issues the same `get_device_info` call, paired
with an inventory result whose shape crashes the observation formatter
(`data` a list holding a non-dict). -/
def envCrash : Env :=
  { llm := fun _ => .ok toolRespInfo,
    norm_info := fun _ => .ok (pyDict [("success", .bool true), ("data", pyList [.int 1])]),
    norm_report := fun _ _ => .ok PyVal.none,
    md5trunc := fun s => s }

/-- A backend giving two distinct tool-free answers without a final-answer
marker. -/
def envDistinct : Env :=
  { envFinal with llm := fun ms => .ok (if ms.length = 2 then "A" else "B") }

/-- A model response carrying one `get_device_report` tool call. -/
def toolRespReport : String := "Thought: t\n<tool_call>\x7b\"name\": \"get_device_report\", \"arguments\": \x7b\"hostname\": \"X\", \"tags\": [\"TIMOS\", \"CORE\"]\x7d\x7d</tool_call>"

/-- The parsed form of the tool call in `toolRespReport`. -/
def reportCallVal : PyVal :=
  pyDict [("name", .str "get_device_report"),
          ("arguments", pyDict [("hostname", .str "X"),
                                ("tags", pyList [.str "TIMOS", .str "CORE"])])]

/-- A backend that always issues the same `get_device_report` call, with a
report capability returning a failure result. -/
def envReport : Env :=
  { llm := fun _ => .ok toolRespReport,
    norm_info := fun _ => .ok PyVal.none,
    norm_report := fun _ _ => .ok (pyDict [("success", .bool false), ("error", .str "e")]),
    md5trunc := fun s => s }

/-- A text holding a fenced tool-call block before a tagged one. -/
def mixedOrderText : String := "```tool_call\n\x7b\"name\": \"a\"\x7d\n```\nsome text\n<tool_call>\x7b\"name\": \"b\"\x7d</tool_call>"

/-- The parsed fenced block of `mixedOrderText` (first in the text). -/
def callA : PyVal := pyDict [("name", .str "a")]

/-- The parsed tagged block of `mixedOrderText` (second in the text). -/
def callB : PyVal := pyDict [("name", .str "b")]

/-- An HTTP oracle that always raises (the tag-mismatch paths never reach
the network). -/
def httpNever : String → HttpResp := fun _ => .exc "unreachable"

/-- A tool result whose `data` is a list holding a non-dict: the formatter
crashes on it. -/
def crashResult : PyVal := pyDict [("success", .bool true), ("data", pyList [.int 1])]

/-- The history of the affirmation counterexample: the offer of a detailed
report is made in an older assistant turn (with an inner question mark),
and the most recent assistant turn is a plain acknowledgement. -/
def affirmHist : List Message :=
  [⟨"user", "show me X"⟩,
   ⟨"assistant", "Shall I get the detailed report? I can do that."⟩,
   ⟨"user", "no"⟩,
   ⟨"assistant", "Okay."⟩,
   ⟨"user", "yes"⟩]

/-! # Theorems -/

theorem memStr_iff (x : String) (l : List String) : memStr x l = true ↔ x ∈ l := by
  simp [memStr, List.any_eq_true]

theorem memStr_append (x : String) (l1 l2 : List String) :
    memStr x (l1 ++ l2) = (memStr x l1 || memStr x l2) := by
  simp [memStr, List.any_append]

set_option maxRecDepth 4000 in
/-- Claim C3 counterexample: in `mixedOrderText` the fenced block (parsing
to `callA`) appears before the tagged block (parsing to `callB`), yet
`find_all_tool_calls` returns the tagged block first — not the order in
which the blocks appear in the text, which `find_all_text_order` (the
definition following the spec words) yields. -/
theorem claim3_counterexample :
    find_all_tool_calls mixedOrderText = .ok [callB, callA]
  ∧ find_all_text_order mixedOrderText = .ok [callA, callB]
  ∧ callA ≠ callB := by
  refine ⟨rfl, rfl, by decide⟩

set_option maxRecDepth 8000 in
set_option maxHeartbeats 1000000 in
/-- Claim C4 counterexample: with the backend `envTwoSame` and
`max_iterations = 3`, the first two model outputs are byte-identical
("A", "A") while the ledger stays empty (no tool call is ever extracted),
yet the query does not terminate upon the second identical output: a third
model call happens and the run ends by the step budget with the budget
message, not the stall fallback. -/
theorem claim4_counterexample :
    (ReActAgent.process_query envTwoSame "S" 3 [] Option.none "hi").resp_trace
      = ["A", "A", "B"]
  ∧ (ReActAgent.process_query envTwoSame "S" 3 [] Option.none "hi").exec_trace = []
  ∧ (ReActAgent.process_query envTwoSame "S" 3 [] Option.none "hi").llm_calls = 3
  ∧ (ReActAgent.process_query envTwoSame "S" 3 [] Option.none "hi").answer
      = timeoutPrefix ++ "A\nA\nB\n" := by
  refine ⟨rfl, rfl, rfl, rfl⟩

set_option maxRecDepth 8000 in
set_option maxHeartbeats 2000000 in
/-- Claim C5 counterexample: with `max_iterations = 2`, a backend that never
emits "Final Answer:" and produces one single (hence never consecutively
identical) output carrying a `get_device_info` call, and an inventory
result whose shape crashes the observation formatter, the loop terminates
after one model call — not after exactly two. -/
theorem claim5_counterexample :
    (ReActAgent.process_query envCrash "S" 2 [] Option.none "q").llm_calls = 1
  ∧ (ReActAgent.process_query envCrash "S" 2 [] Option.none "q").resp_trace = [toolRespInfo]
  ∧ strContainsB toolRespInfo "Final Answer:" = false
  ∧ (ReActAgent.process_query envCrash "S" 2 [] Option.none "q").caught
      = some "AttributeError: object has no attribute get" := by
  refine ⟨rfl, rfl, rfl, rfl⟩

set_option maxRecDepth 4000 in
/-- Claim C6 counterexample: for the query "yes" on `affirmHist`, the most
recent assistant message is "Okay." — it does not mention "detailed
report"; the only assistant message that does contains its question mark in
the middle, not at the end — yet the synthetic affirmation message is
appended. -/
theorem claim6_counterexample :
    lastAssistant affirmHist = some ⟨"assistant", "Okay."⟩
  ∧ strContainsB (pyLower "Okay.") "detailed report" = false
  ∧ endsWithStr "Shall I get the detailed report? I can do that." "?" = false
  ∧ (buildOutbound "S" affirmHist "yes" Option.none).getLast?
      = some ⟨"user", affirmSyntheticText "yes" Option.none⟩ := by
  refine ⟨rfl, rfl, rfl, rfl⟩

/-- Claim C7 counterexample: `NormTools.get_device_report` — the
implementation actually wired into the agent — answers a tag list matching
neither accepted set with the error "No specific report available for
device with tags: FOO", which does not name the accepted tag sets (it does
not even contain "TIMOS"). -/
theorem claim7_counterexample :
    NormTools.get_device_report httpNever (.str "X") (pyList [.str "FOO"])
      = .ok (normFailure "No specific report available for device with tags: FOO" (.str "X"))
  ∧ strContainsB "No specific report available for device with tags: FOO" "TIMOS" = false := by
  refine ⟨rfl, rfl⟩

/-- Claim C8 counterexample: a success result whose `data` is a list
holding a non-dict makes `format_observation` raise (`AttributeError` from
`device.get` in `format_device_data`) instead of degrading to a generic
rendering. -/
theorem claim8_counterexample :
    format_observation crashResult = .error "AttributeError: object has no attribute get" := rfl

theorem except_bind_ok {α β : Type} (x : α) (f : α → Except String β) :
    (Except.ok x >>= f) = f x := rfl

theorem except_bind_err {α β : Type} (e : String) (f : α → Except String β) :
    ((Except.error e : Except String α) >>= f) = .error e := rfl

theorem pickEligible_some (env : Env) (ledger : List String) (i r : Bool)
    (tcs : List PyVal) (tc : PyVal) (tid : String)
    (h : pickEligible env ledger i r tcs = .ok (some (tc, tid))) :
    generate_tool_id env.md5trunc tc = .ok tid ∧ memStr tid ledger = false ∧ r = false := by
  induction tcs with
  | nil => simp [pickEligible] at h
  | cons hd tl ih =>
      rw [pickEligible] at h
      cases hgen : generate_tool_id env.md5trunc hd with
      | error e => rw [hgen] at h; simp only [bind, Except.bind] at h; exact Except.noConfusion h
      | ok tid0 =>
          rw [hgen] at h
          simp only [bind, Except.bind, pure, Except.pure] at h
          split at h
          · exact ih h
          · next hmem =>
              split at h
              · exact Except.noConfusion h
              · split at h
                · exact ih h
                · split at h
                  · exact ih h
                  · next hr =>
                      simp only [Except.ok.injEq, Option.some.injEq, Prod.mk.injEq] at h
                      obtain ⟨rfl, rfl⟩ := h
                      exact ⟨hgen, by simpa using hmem, by simpa using hr⟩

theorem noToolBranch_inr (env : Env) (r : String) (st : LoopSt) (tcs : List PyVal)
    (st2 : LoopSt) (h : noToolBranch env r st tcs = .ok (.inr st2)) :
    st2.ledger = st.ledger ∧ st2.report_done = st.report_done
  ∧ st2.last_response = st.last_response ∧ st2.identical_count = st.identical_count
  ∧ st2.history = st.history := by
  unfold noToolBranch at h
  cases ha : (match tcs with
    | [] => (pure false : Except String Bool)
    | _ => allIdsExecuted env st.ledger tcs) with
  | error e => rw [ha] at h; simp only [bind, Except.bind] at h; exact Except.noConfusion h
  | ok b =>
      rw [ha] at h
      simp only [bind, Except.bind] at h
      split at h
      · simp only [pure, Except.pure, Except.ok.injEq, Sum.inr.injEq] at h
        subst h; exact ⟨rfl, rfl, rfl, rfl, rfl⟩
      · split at h
        · simp only [pure, Except.pure, Except.ok.injEq] at h
          exact absurd h (by simp)
        · split at h
          · simp only [pure, Except.pure, Except.ok.injEq, Sum.inr.injEq] at h
            subst h; exact ⟨rfl, rfl, rfl, rfl, rfl⟩
          · simp only [pure, Except.pure, Except.ok.injEq, Sum.inr.injEq] at h
            subst h; exact ⟨rfl, rfl, rfl, rfl, rfl⟩

theorem noToolBranch_inl (env : Env) (r : String) (st : LoopSt) (tcs : List PyVal)
    (rd : RetData) (h : noToolBranch env r st tcs = .ok (.inl rd)) :
    rd.history = st.history ++ [⟨"assistant", rd.answer⟩]
  ∧ strContainsB r "Final Answer:" = true := by
  unfold noToolBranch at h
  cases ha : (match tcs with
    | [] => (pure false : Except String Bool)
    | _ => allIdsExecuted env st.ledger tcs) with
  | error e => rw [ha] at h; simp only [bind, Except.bind] at h; exact Except.noConfusion h
  | ok b =>
      rw [ha] at h
      simp only [bind, Except.bind] at h
      split at h
      · simp only [pure, Except.pure, Except.ok.injEq] at h
        exact absurd h (by simp)
      · split at h
        · next fa hfa =>
            simp only [pure, Except.pure, Except.ok.injEq, Sum.inl.injEq] at h
            subst h
            refine ⟨rfl, ?_⟩
            by_cases hc : strContainsB r "Final Answer:"
            · exact hc
            · rw [if_neg hc] at hfa; exact Option.noConfusion hfa
        · split at h
          · simp only [pure, Except.pure, Except.ok.injEq] at h
            exact absurd h (by simp)
          · simp only [pure, Except.pure, Except.ok.injEq] at h
            exact absurd h (by simp)

theorem pyIsStrEq_iff (v : PyVal) (s : String) : pyIsStrEq v s = true ↔ v = .str s := by
  cases v <;> simp [pyIsStrEq]

set_option maxHeartbeats 1000000 in
theorem afterExtract_exec (env : Env) (r : String) (st : LoopSt) (tc : PyVal)
    (out : Except String (RetData ⊕ LoopSt))
    (h : afterExtract env r st = (some tc, out)) :
    ∃ tid, generate_tool_id env.md5trunc tc = .ok tid ∧ memStr tid st.ledger = false
      ∧ st.report_done = false := by
  unfold afterExtract at h
  split at h
  · simp only [Prod.mk.injEq] at h
    exact absurd h.1 (by simp)
  · split at h
    · simp only [Prod.mk.injEq] at h
      exact absurd h.1 (by simp)
    · rename_i tcs tc0 tid0 heq
      simp only [Prod.mk.injEq] at h
      obtain ⟨hev, _⟩ := h
      rw [show tc0 = tc from by simpa using hev] at heq
      obtain ⟨h1, h2, h3⟩ := pickEligible_some env st.ledger st.info_done st.report_done
        _ tc tid0 heq
      exact ⟨tid0, h1, h2, h3⟩
    · simp only [Prod.mk.injEq] at h
      exact absurd h.1 (by simp)

set_option maxHeartbeats 1000000 in
theorem afterExtract_inr (env : Env) (r : String) (st : LoopSt) (ev : Option PyVal)
    (st2 : LoopSt) (h : afterExtract env r st = (ev, .ok (.inr st2))) :
    st2.last_response = st.last_response ∧ st2.identical_count = st.identical_count
  ∧ st2.history = st.history
  ∧ (st.report_done = true → st2.report_done = true)
  ∧ (ev = Option.none → st2.ledger = st.ledger ∧ st2.report_done = st.report_done)
  ∧ (∀ tc2, ev = some tc2 → ∃ tid, generate_tool_id env.md5trunc tc2 = .ok tid
        ∧ st2.ledger = st.ledger ++ [tid] ∧ memStr tid st.ledger = false
        ∧ st2.report_done = nameIsReport tc2 ∧ st.report_done = false) := by
  unfold afterExtract at h
  split at h
  · simp only [Prod.mk.injEq] at h
    exact absurd h.2 (by simp)
  · split at h
    · simp only [Prod.mk.injEq] at h
      exact absurd h.2 (by simp)
    · rename_i tcs tc0 tid0 heq
      simp only [Prod.mk.injEq] at h
      obtain ⟨hev, hout⟩ := h
      obtain ⟨hgen, hmem, hrep⟩ := pickEligible_some env st.ledger st.info_done
        st.report_done _ tc0 tid0 heq
      split at hout
      · exact Except.noConfusion hout
      · rename_i observation hobs
        split at hout
        · exact Except.noConfusion hout
        · rename_i nameV hname
          split at hout
          · rename_i hinfo
            split at hout
            · exact Except.noConfusion hout
            · rename_i argsV hargs
              split at hout
              · exact Except.noConfusion hout
              · rename_i hostV hhost
                simp only [Except.ok.injEq, Sum.inr.injEq] at hout
                subst hout
                refine ⟨rfl, rfl, rfl, by simp [hrep], ?_, ?_⟩
                · intro he
                  exact absurd (hev.trans he) (by simp)
                · intro tc2 he
                  have htc : tc0 = tc2 := by simpa using hev.trans he
                  subst htc
                  refine ⟨tid0, hgen, rfl, hmem, ?_, hrep⟩
                  simp only [nameIsReport, hname, hrep]
                  obtain rfl := (pyIsStrEq_iff nameV _).mp hinfo
                  simp [pyIsStrEq]
          · rename_i hinfo
            split at hout
            · rename_i hrep2
              simp only [Except.ok.injEq, Sum.inr.injEq] at hout
              subst hout
              refine ⟨rfl, rfl, rfl, by simp [hrep], ?_, ?_⟩
              · intro he
                exact absurd (hev.trans he) (by simp)
              · intro tc2 he
                have htc : tc0 = tc2 := by simpa using hev.trans he
                subst htc
                refine ⟨tid0, hgen, rfl, hmem, ?_, hrep⟩
                simp [nameIsReport, hname, hrep2]
            · rename_i hrep2
              simp only [Except.ok.injEq, Sum.inr.injEq] at hout
              subst hout
              refine ⟨rfl, rfl, rfl, by simp [hrep], ?_, ?_⟩
              · intro he
                exact absurd (hev.trans he) (by simp)
              · intro tc2 he
                have htc : tc0 = tc2 := by simpa using hev.trans he
                subst htc
                refine ⟨tid0, hgen, rfl, hmem, ?_, hrep⟩
                simp only [nameIsReport, hname, hrep]
                simpa using hrep2
    · simp only [Prod.mk.injEq] at h
      obtain ⟨hev, hout⟩ := h
      obtain ⟨g1, g2, g3, g4, g5⟩ := noToolBranch_inr env r st _ st2 hout
      refine ⟨g3, g4, g5, fun hr => g2 ▸ hr, fun _ => ⟨g1, g2⟩, ?_⟩
      intro tc2 he
      exact absurd (hev.trans he) (by simp)

set_option maxHeartbeats 1000000 in
theorem afterExtract_inl (env : Env) (r : String) (st : LoopSt) (ev : Option PyVal)
    (rd : RetData) (h : afterExtract env r st = (ev, .ok (.inl rd))) :
    rd.history = st.history ++ [⟨"assistant", rd.answer⟩]
  ∧ strContainsB r "Final Answer:" = true := by
  unfold afterExtract at h
  split at h
  · simp only [Prod.mk.injEq] at h
    exact absurd h.2 (by simp)
  · split at h
    · simp only [Prod.mk.injEq] at h
      exact absurd h.2 (by simp)
    · simp only [Prod.mk.injEq] at h
      obtain ⟨_, hout⟩ := h
      split at hout
      · exact Except.noConfusion hout
      · split at hout
        · exact Except.noConfusion hout
        · split at hout
          · split at hout
            · exact Except.noConfusion hout
            · split at hout
              · exact Except.noConfusion hout
              · simp at hout
          · split at hout
            · simp at hout
            · simp at hout
    · simp only [Prod.mk.injEq] at h
      exact noToolBranch_inl env r st _ rd h.2

theorem bodyMain_exec (env : Env) (r : String) (st : LoopSt) (tc : PyVal)
    (out : Except String (RetData ⊕ LoopSt)) (h : bodyMain env r st = (some tc, out)) :
    ∃ tid, generate_tool_id env.md5trunc tc = .ok tid ∧ memStr tid st.ledger = false
      ∧ st.report_done = false := by
  unfold bodyMain at h
  simpa using afterExtract_exec env r _ tc out h

theorem bodyMain_inr (env : Env) (r : String) (st : LoopSt) (ev : Option PyVal)
    (st2 : LoopSt) (h : bodyMain env r st = (ev, .ok (.inr st2))) :
    st2.last_response = r ∧ st2.identical_count = st.identical_count
  ∧ st2.history = st.history
  ∧ (st.report_done = true → st2.report_done = true)
  ∧ (ev = Option.none → st2.ledger = st.ledger ∧ st2.report_done = st.report_done)
  ∧ (∀ tc2, ev = some tc2 → ∃ tid, generate_tool_id env.md5trunc tc2 = .ok tid
        ∧ st2.ledger = st.ledger ++ [tid] ∧ memStr tid st.ledger = false
        ∧ st2.report_done = nameIsReport tc2 ∧ st.report_done = false) := by
  unfold bodyMain at h
  simpa using afterExtract_inr env r _ ev st2 h

theorem bodyMain_inl (env : Env) (r : String) (st : LoopSt) (ev : Option PyVal)
    (rd : RetData) (h : bodyMain env r st = (ev, .ok (.inl rd))) :
    rd.history = st.history ++ [⟨"assistant", rd.answer⟩]
  ∧ strContainsB r "Final Answer:" = true := by
  unfold bodyMain at h
  simpa using afterExtract_inl env r _ ev rd h

theorem loopBody_exec (env : Env) (r : String) (st : LoopSt) (tc : PyVal)
    (out : Except String (RetData ⊕ LoopSt)) (h : loopBody env r st = (some tc, out)) :
    ∃ tid, generate_tool_id env.md5trunc tc = .ok tid ∧ memStr tid st.ledger = false
      ∧ st.report_done = false := by
  unfold loopBody at h
  by_cases hstrip : pyStrip r = pyStrip st.last_response
  · rw [if_pos hstrip] at h
    by_cases hcnt : 2 ≤ st.identical_count + 1
    · rw [if_pos hcnt] at h
      split at h
      · simp only [Prod.mk.injEq] at h
        exact absurd h.1 (by simp)
      · split at h
        · simp only [Prod.mk.injEq] at h
          exact absurd h.1 (by simp)
        · simpa using bodyMain_exec env r _ tc out h
        · simp only [Prod.mk.injEq] at h
          exact absurd h.1 (by simp)
    · rw [if_neg hcnt] at h
      simpa using bodyMain_exec env r _ tc out h
  · rw [if_neg hstrip] at h
    simpa using bodyMain_exec env r _ tc out h

theorem loopBody_inr (env : Env) (r : String) (st : LoopSt) (ev : Option PyVal)
    (st2 : LoopSt) (h : loopBody env r st = (ev, .ok (.inr st2))) :
    st2.last_response = r ∧ st2.history = st.history
  ∧ (st.report_done = true → st2.report_done = true)
  ∧ (ev = Option.none → st2.ledger = st.ledger ∧ st2.report_done = st.report_done)
  ∧ (∀ tc2, ev = some tc2 → ∃ tid, generate_tool_id env.md5trunc tc2 = .ok tid
        ∧ st2.ledger = st.ledger ++ [tid] ∧ memStr tid st.ledger = false
        ∧ st2.report_done = nameIsReport tc2 ∧ st.report_done = false)
  ∧ (pyStrip r ≠ pyStrip st.last_response → st2.identical_count = 0) := by
  unfold loopBody at h
  by_cases hstrip : pyStrip r = pyStrip st.last_response
  · rw [if_pos hstrip] at h
    by_cases hcnt : 2 ≤ st.identical_count + 1
    · rw [if_pos hcnt] at h
      split at h
      · simp only [Prod.mk.injEq] at h
        exact absurd h.2 (by simp)
      · split at h
        · simp only [Prod.mk.injEq] at h
          exact absurd h.2 (by simp)
        · have := bodyMain_inr env r _ ev st2 h
          simp only at this
          exact ⟨this.1, this.2.2.1, this.2.2.2.1, this.2.2.2.2.1, this.2.2.2.2.2,
            fun hne => absurd hstrip hne⟩
        · simp only [Prod.mk.injEq] at h
          exact absurd h.2 (by simp)
    · rw [if_neg hcnt] at h
      have := bodyMain_inr env r _ ev st2 h
      simp only at this
      exact ⟨this.1, this.2.2.1, this.2.2.2.1, this.2.2.2.2.1, this.2.2.2.2.2,
        fun hne => absurd hstrip hne⟩
  · rw [if_neg hstrip] at h
    have := bodyMain_inr env r _ ev st2 h
    simp only at this
    exact ⟨this.1, this.2.2.1, this.2.2.2.1, this.2.2.2.2.1, this.2.2.2.2.2,
      fun _ => this.2.1⟩

theorem loopBody_inl (env : Env) (r : String) (st : LoopSt) (ev : Option PyVal)
    (rd : RetData) (h : loopBody env r st = (ev, .ok (.inl rd))) :
    rd.history = st.history ++ [⟨"assistant", rd.answer⟩]
  ∧ (strContainsB r "Final Answer:" = true ∨ pyStrip r = pyStrip st.last_response) := by
  unfold loopBody at h
  by_cases hstrip : pyStrip r = pyStrip st.last_response
  · rw [if_pos hstrip] at h
    by_cases hcnt : 2 ≤ st.identical_count + 1
    · rw [if_pos hcnt] at h
      split at h
      · simp only [Prod.mk.injEq] at h
        exact absurd h.2 (by simp)
      · split at h
        · simp only [Prod.mk.injEq] at h
          exact absurd h.2 (by simp)
        · have := bodyMain_inl env r _ ev rd h
          simp only at this
          exact ⟨this.1, Or.inl this.2⟩
        · simp only [Prod.mk.injEq] at h
          obtain ⟨_, hout⟩ := h
          simp only [Except.ok.injEq, Sum.inl.injEq] at hout
          subst hout
          exact ⟨rfl, Or.inr hstrip⟩
    · rw [if_neg hcnt] at h
      have := bodyMain_inl env r _ ev rd h
      simp only at this
      exact ⟨this.1, Or.inl this.2⟩
  · rw [if_neg hstrip] at h
    have := bodyMain_inl env r _ ev rd h
    simp only at this
    exact ⟨this.1, Or.inl this.2⟩

theorem loopRun_zero (env : Env) (st : LoopSt) :
    loopRun env 0 st =
      { answer := timeoutPrefix ++ st.context,
        history := st.history ++ [⟨"assistant", timeoutPrefix ++ st.context⟩], ldi := st.ldi,
        context := st.context, exec_trace := [], resp_trace := [], llm_calls := 0,
        caught := Option.none } := rfl

theorem loopRun_llm_err (env : Env) (n : Nat) (st : LoopSt) (e : String)
    (hl : env.llm st.messages = .error e) :
    loopRun env (n + 1) st =
      { answer := errorPrefix ++ e,
        history := st.history ++ [⟨"assistant", errorPrefix ++ e⟩], ldi := st.ldi,
        context := st.context, exec_trace := [], resp_trace := [], llm_calls := 1,
        caught := some e } := by
  simp [loopRun, hl]

theorem loopRun_body_err (env : Env) (n : Nat) (st : LoopSt) (r : String)
    (ev : Option PyVal) (e : String) (hl : env.llm st.messages = .ok r)
    (hb : loopBody env r st = (ev, .error e)) :
    loopRun env (n + 1) st =
      { answer := errorPrefix ++ e,
        history := st.history ++ [⟨"assistant", errorPrefix ++ e⟩], ldi := st.ldi,
        context := st.context, exec_trace := ev.toList, resp_trace := [r], llm_calls := 1,
        caught := some e } := by
  simp [loopRun, hl, hb]

theorem loopRun_body_inl (env : Env) (n : Nat) (st : LoopSt) (r : String)
    (ev : Option PyVal) (rd : RetData) (hl : env.llm st.messages = .ok r)
    (hb : loopBody env r st = (ev, .ok (.inl rd))) :
    loopRun env (n + 1) st =
      { answer := rd.answer, history := rd.history, ldi := st.ldi, context := rd.context,
        exec_trace := ev.toList, resp_trace := [r], llm_calls := 1,
        caught := Option.none } := by
  simp [loopRun, hl, hb]

theorem loopRun_body_inr (env : Env) (n : Nat) (st : LoopSt) (r : String)
    (ev : Option PyVal) (st2 : LoopSt) (hl : env.llm st.messages = .ok r)
    (hb : loopBody env r st = (ev, .ok (.inr st2))) :
    loopRun env (n + 1) st =
      { answer := (loopRun env n st2).answer, history := (loopRun env n st2).history,
        ldi := (loopRun env n st2).ldi, context := (loopRun env n st2).context,
        exec_trace := ev.toList ++ (loopRun env n st2).exec_trace,
        resp_trace := r :: (loopRun env n st2).resp_trace,
        llm_calls := (loopRun env n st2).llm_calls + 1,
        caught := (loopRun env n st2).caught } := by
  simp [loopRun, hl, hb]

theorem loopRun_report_no_exec (env : Env) (fuel : Nat) (st : LoopSt)
    (h : st.report_done = true) : (loopRun env fuel st).exec_trace = [] := by
  induction fuel generalizing st with
  | zero => simp [loopRun_zero]
  | succ n ih =>
      cases hl : env.llm st.messages with
      | error e => simp [loopRun_llm_err env n st e hl]
      | ok r =>
          rcases hb : loopBody env r st with ⟨ev, out⟩
          cases ev with
          | some tc =>
              obtain ⟨tid, _, _, hrd⟩ := loopBody_exec env r st tc out hb
              rw [h] at hrd
              exact Bool.noConfusion hrd
          | none =>
              cases out with
              | error e => simp [loopRun_body_err env n st r _ e hl hb]
              | ok s =>
                  cases s with
                  | inl rd => simp [loopRun_body_inl env n st r _ rd hl hb]
                  | inr st2 =>
                      have h2 := ((loopBody_inr env r st _ st2 hb).2.2.1) h
                      simp [loopRun_body_inr env n st r _ st2 hl hb, ih st2 h2]

theorem loopRun_last_assistant (env : Env) (fuel : Nat) (st : LoopSt) :
    (loopRun env fuel st).history.getLast?
      = some ⟨"assistant", (loopRun env fuel st).answer⟩ := by
  induction fuel generalizing st with
  | zero => simp [loopRun_zero]
  | succ n ih =>
      cases hl : env.llm st.messages with
      | error e => simp [loopRun_llm_err env n st e hl]
      | ok r =>
          rcases hb : loopBody env r st with ⟨ev, out⟩
          cases out with
          | error e => simp [loopRun_body_err env n st r ev e hl hb]
          | ok s =>
              cases s with
              | inl rd =>
                  have := (loopBody_inl env r st ev rd hb).1
                  simp [loopRun_body_inl env n st r ev rd hl hb, this]
              | inr st2 =>
                  simpa [loopRun_body_inr env n st r ev st2 hl hb] using ih st2

theorem memStr_singleton (x y : String) : memStr x [y] = decide (x = y) := by
  simp [memStr]

theorem loopRun_report_terminal (env : Env) (fuel : Nat) (st : LoopSt)
    (pre : List PyVal) (tc : PyVal) (post : List PyVal)
    (h : (loopRun env fuel st).exec_trace = pre ++ tc :: post)
    (hrep : nameIsReport tc = true) : post = [] := by
  induction fuel generalizing st pre with
  | zero =>
      rw [loopRun_zero] at h
      simp at h
  | succ n ih =>
      cases hl : env.llm st.messages with
      | error e =>
          rw [loopRun_llm_err env n st e hl] at h
          simp at h
      | ok r =>
          rcases hb : loopBody env r st with ⟨ev, out⟩
          cases out with
          | error e =>
              rw [loopRun_body_err env n st r ev e hl hb] at h
              cases ev with
              | none => simp at h
              | some tc0 =>
                  simp only [Option.toList] at h
                  cases pre with
                  | nil =>
                      simp only [List.nil_append] at h
                      obtain ⟨rfl, h2⟩ := List.cons.injEq .. ▸ h
                      exact h2.symm
                  | cons p pre2 =>
                      obtain ⟨_, h2⟩ := List.cons.injEq .. ▸ h
                      exact absurd h2.symm (by simp)
          | ok s =>
              cases s with
              | inl rd =>
                  rw [loopRun_body_inl env n st r ev rd hl hb] at h
                  cases ev with
                  | none => simp at h
                  | some tc0 =>
                      simp only [Option.toList] at h
                      cases pre with
                      | nil =>
                          simp only [List.nil_append] at h
                          obtain ⟨rfl, h2⟩ := List.cons.injEq .. ▸ h
                          exact h2.symm
                      | cons p pre2 =>
                          obtain ⟨_, h2⟩ := List.cons.injEq .. ▸ h
                          exact absurd h2.symm (by simp)
              | inr st2 =>
                  rw [loopRun_body_inr env n st r ev st2 hl hb] at h
                  cases ev with
                  | none =>
                      simp only [Option.toList, List.nil_append] at h
                      exact ih st2 pre h
                  | some tc0 =>
                      simp only [Option.toList, List.cons_append, List.nil_append] at h
                      cases pre with
                      | nil =>
                          simp only [List.nil_append] at h
                          obtain ⟨htc, h2⟩ := List.cons.injEq .. ▸ h
                          obtain ⟨tid, _, _, _, hflag, _⟩ :=
                            ((loopBody_inr env r st _ st2 hb).2.2.2.2.1) tc0 rfl
                          rw [htc, hrep] at hflag
                          have hempty := loopRun_report_no_exec env n st2 hflag
                          rw [hempty] at h2
                          exact h2.symm
                      | cons p pre2 =>
                          obtain ⟨_, h2⟩ := List.cons.injEq .. ▸ h
                          exact ih st2 pre2 h2

theorem loopRun_trace_ids (env : Env) (fuel : Nat) (st : LoopSt) :
    List.Pairwise (fun a b => idOf env a ≠ idOf env b) (loopRun env fuel st).exec_trace
  ∧ ∀ tc2 ∈ (loopRun env fuel st).exec_trace, memStr (idOf env tc2) st.ledger = false := by
  induction fuel generalizing st with
  | zero => simp [loopRun_zero]
  | succ n ih =>
      cases hl : env.llm st.messages with
      | error e => simp [loopRun_llm_err env n st e hl]
      | ok r =>
          rcases hb : loopBody env r st with ⟨ev, out⟩
          cases out with
          | error e =>
              rw [loopRun_body_err env n st r ev e hl hb]
              cases ev with
              | none => simp
              | some tc0 =>
                  obtain ⟨tid, hgen, hmem, _⟩ := loopBody_exec env r st tc0 _ hb
                  simp only [Option.toList]
                  refine ⟨by simp, ?_⟩
                  intro tc2 htc2
                  simp only [List.mem_singleton] at htc2
                  subst htc2
                  simpa [idOf, hgen] using hmem
          | ok s =>
              cases s with
              | inl rd =>
                  rw [loopRun_body_inl env n st r ev rd hl hb]
                  cases ev with
                  | none => simp
                  | some tc0 =>
                      obtain ⟨tid, hgen, hmem, _⟩ := loopBody_exec env r st tc0 _ hb
                      simp only [Option.toList]
                      refine ⟨by simp, ?_⟩
                      intro tc2 htc2
                      simp only [List.mem_singleton] at htc2
                      subst htc2
                      simpa [idOf, hgen] using hmem
              | inr st2 =>
                  rw [loopRun_body_inr env n st r ev st2 hl hb]
                  obtain ⟨ihp, ihm⟩ := ih st2
                  cases ev with
                  | none =>
                      obtain ⟨hled, _⟩ := ((loopBody_inr env r st _ st2 hb).2.2.2.1) rfl
                      simp only [Option.toList, List.nil_append]
                      refine ⟨ihp, ?_⟩
                      intro tc2 htc2
                      have := ihm tc2 htc2
                      rw [hled] at this
                      exact this
                  | some tc0 =>
                      obtain ⟨tid, hgen, hled, hmem, _, _⟩ :=
                        ((loopBody_inr env r st _ st2 hb).2.2.2.2.1) tc0 rfl
                      have hid0 : idOf env tc0 = tid := by simp [idOf, hgen]
                      simp only [Option.toList, List.cons_append, List.nil_append]
                      constructor
                      · refine List.pairwise_cons.mpr ⟨?_, ihp⟩
                        intro x hx
                        have hxm := ihm x hx
                        rw [hled, memStr_append] at hxm
                        have : memStr (idOf env x) [tid] = false := by
                          cases hq : memStr (idOf env x) [tid] <;> simp [hq] at hxm ⊢
                        rw [memStr_singleton] at this
                        rw [hid0]
                        intro hcontra
                        rw [hcontra] at this
                        simp at this
                      · intro tc2 htc2
                        rcases List.mem_cons.mp htc2 with h1 | h1
                        · subst h1
                          rw [hid0]
                          exact hmem
                        · have hxm := ihm tc2 h1
                          rw [hled, memStr_append] at hxm
                          cases hq : memStr (idOf env tc2) st.ledger
                          · rfl
                          · rw [hq] at hxm
                            simp at hxm

theorem countP_le_one_of_key (l : List PyVal) (p : PyVal → Bool) (f : PyVal → String)
    (hpair : List.Pairwise (fun a b => f a ≠ f b) l)
    (hcong : ∀ a b, p a = true → p b = true → f a = f b) :
    l.countP p ≤ 1 := by
  induction l with
  | nil => simp
  | cons hd tl ih =>
      obtain ⟨hhd, htl⟩ := List.pairwise_cons.mp hpair
      by_cases hp : p hd = true
      · have hz : tl.countP p = 0 :=
          List.countP_eq_zero.mpr (fun x hx hpx => (hhd x hx) (hcong hd x hp hpx))
        simp [List.countP_cons, hp, hz]
      · simp only [List.countP_cons, hp, if_false, Nat.add_zero]
        exact ih htl

theorem toolCallKey_idOf (env : Env) (tc : PyVal) (nm args : PyVal)
    (h : toolCallKey tc = some (nm, args)) :
    idOf env tc = env.md5trunc (pyStr nm ++ "_" ++ pyStr args) := by
  cases tc with
  | dict fs =>
      simp only [toolCallKey, Option.some.injEq, Prod.mk.injEq] at h
      obtain ⟨h1, h2⟩ := h
      subst h1
      subst h2
      simp [idOf, generate_tool_id, pyGetMethod, bind, Except.bind, pure, Except.pure,
        pyDictGetD]
  | none => simp [toolCallKey] at h
  | bool b => simp [toolCallKey] at h
  | int n => simp [toolCallKey] at h
  | str s => simp [toolCallKey] at h
  | list xs => simp [toolCallKey] at h

/-- Claim C1: within one `process_query` call, any two extracted tool calls
with the same name and the same arguments mapping lead to at most one
invocation of `ToolManager.execute_tool`: the trace of executed tool calls
contains at most one entry with any given (name, arguments) key.  This
holds for every backend, every tool capability, every hash function, every
prior history and every query. -/
theorem claim1_ledger_prevents_duplicate_execution
    (env : Env) (system_prompt : String) (max_iterations : Nat)
    (history0 : List Message) (ldi0 : Option LastDeviceInfo) (user_query : String)
    (nm args : PyVal) :
    ((ReActAgent.process_query env system_prompt max_iterations history0 ldi0
        user_query).exec_trace.countP
      (fun tc => decide (toolCallKey tc = some (nm, args)))) ≤ 1 := by
  obtain ⟨hpair, _⟩ := loopRun_trace_ids env max_iterations
    { messages := buildOutbound system_prompt (history0 ++ [⟨"user", user_query⟩])
        user_query ldi0,
      history := history0 ++ [⟨"user", user_query⟩], ldi := ldi0, context := "",
      ledger := [], last_response := "", identical_count := 0, info_done := false,
      report_done := false }
  exact countP_le_one_of_key _ _ (idOf env) hpair
    (fun a b ha hb => by
      rw [toolCallKey_idOf env a nm args (of_decide_eq_true ha),
        toolCallKey_idOf env b nm args (of_decide_eq_true hb)])

/-- Claim C2: once a `get_device_report` tool call has executed in a query
(successfully or not — the flag is set on execution regardless), no further
tool of any kind is executed in that same call: in the execution trace,
anything after a `get_device_report` entry is empty.  This unconditional
form entails the claim, which conditions on successful execution. -/
theorem claim2_report_is_terminal
    (env : Env) (system_prompt : String) (max_iterations : Nat)
    (history0 : List Message) (ldi0 : Option LastDeviceInfo) (user_query : String)
    (pre : List PyVal) (tc : PyVal) (post : List PyVal)
    (h : (ReActAgent.process_query env system_prompt max_iterations history0 ldi0
        user_query).exec_trace = pre ++ tc :: post)
    (hrep : nameIsReport tc = true) : post = [] :=
  loopRun_report_terminal env max_iterations _ pre tc post h hrep

set_option maxRecDepth 8000 in
set_option maxHeartbeats 1000000 in
/-- Claim C2 witness: a run in which the model issues one
`get_device_report` call executes exactly that call, and the theorem
applies to it with an empty tail. -/
theorem claim2_report_is_terminal_witness :
    (ReActAgent.process_query envReport "S" 2 [] Option.none "q").exec_trace
      = [] ++ reportCallVal :: []
  ∧ nameIsReport reportCallVal = true
  ∧ ([] : List PyVal) = [] := by
  have h1 : (ReActAgent.process_query envReport "S" 2 [] Option.none "q").exec_trace
      = [] ++ reportCallVal :: [] := rfl
  have h2 : nameIsReport reportCallVal = true := rfl
  exact ⟨h1, h2, claim2_report_is_terminal envReport "S" 2 [] Option.none "q"
    [] reportCallVal [] h1 h2⟩

/-- Claim C9: `process_query` returns a string on every path (the embedding
is a total function; the `except` handler turns every internal exception
into a returned error message), and the conversation history after every
run ends with an assistant entry carrying exactly the returned text — for
every backend (including failing ones), tool capability, history and
query. -/
theorem claim9_always_responds
    (env : Env) (system_prompt : String) (max_iterations : Nat)
    (history0 : List Message) (ldi0 : Option LastDeviceInfo) (user_query : String) :
    (ReActAgent.process_query env system_prompt max_iterations history0 ldi0
        user_query).history.getLast?
      = some ⟨"assistant", (ReActAgent.process_query env system_prompt max_iterations
          history0 ldi0 user_query).answer⟩ :=
  loopRun_last_assistant env max_iterations _

theorem theText_is (s : String) :
    s = "Thought: x\nFinal Answer: The device is up.\n" →
    extractFinalAnswer s = some "The device is up." := by
  intro h; subst h; rfl

theorem loopBody_fa_literal (env : Env) (st : LoopSt)
    (hne : pyStrip "Thought: x\nFinal Answer: The device is up.\n" ≠ pyStrip st.last_response) :
    loopBody env "Thought: x\nFinal Answer: The device is up.\n" st
      = (Option.none, .ok (.inl ⟨"The device is up.",
          st.history ++ [⟨"assistant", "The device is up."⟩],
          st.context ++ "Thought: x\nFinal Answer: The device is up.\n" ++ "\n"⟩)) := by
  unfold loopBody
  rw [if_neg hne]
  rfl

/-- Claim C10: whenever the model's round output is exactly
`"Thought: x\nFinal Answer: The device is up.\n"` (which contains no
extractable tool-call block), `process_query` returns exactly
`"The device is up."` — the text after the "Final Answer:" marker,
stripped — after one model call, and appends it to the conversation
history as the assistant turn.  Stated for every environment whose backend
produces that output, every prior history, and every query. -/
theorem claim10_final_answer_extraction
    (env : Env) (system_prompt : String) (max_iterations : Nat)
    (history0 : List Message) (ldi0 : Option LastDeviceInfo) (user_query : String)
    (hconst : ∀ ms, env.llm ms = .ok "Thought: x\nFinal Answer: The device is up.\n")
    (hN : 1 ≤ max_iterations) :
    (ReActAgent.process_query env system_prompt max_iterations history0 ldi0
        user_query).answer = "The device is up."
  ∧ (ReActAgent.process_query env system_prompt max_iterations history0 ldi0
        user_query).history
      = history0 ++ [⟨"user", user_query⟩, ⟨"assistant", "The device is up."⟩]
  ∧ (ReActAgent.process_query env system_prompt max_iterations history0 ldi0
        user_query).llm_calls = 1 := by
  obtain ⟨k, rfl⟩ : ∃ k, max_iterations = k + 1 :=
    ⟨max_iterations - 1, (Nat.succ_pred_eq_of_pos hN).symm⟩
  unfold ReActAgent.process_query
  have hlit : pyStrip "Thought: x\nFinal Answer: The device is up.\n" ≠ pyStrip "" := by
    decide
  rw [loopRun_body_inl env k _ _ Option.none _ (hconst _)
    (loopBody_fa_literal env _ hlit)]
  refine ⟨rfl, ?_, rfl⟩
  simp

/-- Claim C10 witness: the constant backend `envFinal` satisfies the
hypotheses at `max_iterations = 5` on an empty history. -/
theorem claim10_final_answer_extraction_witness :
    (ReActAgent.process_query envFinal "S" 5 [] Option.none "hi").answer
        = "The device is up."
  ∧ (ReActAgent.process_query envFinal "S" 5 [] Option.none "hi").history
      = [⟨"user", "hi"⟩, ⟨"assistant", "The device is up."⟩]
  ∧ (ReActAgent.process_query envFinal "S" 5 [] Option.none "hi").llm_calls = 1 := by
  have := claim10_final_answer_extraction envFinal "S" 5 [] Option.none "hi"
    (fun _ => rfl) (by decide)
  simpa using this


theorem noTool_cont (env : Env) (r : String) (st : LoopSt)
    (hFA : strContainsB r "Final Answer:" = false) :
    ∃ st2, noToolBranch env r st [] = .ok (.inr st2)
      ∧ st2.context = st.context ∧ st2.ledger = st.ledger
      ∧ st2.last_response = st.last_response ∧ st2.identical_count = st.identical_count
      ∧ st2.history = st.history ∧ st2.report_done = st.report_done := by
  unfold noToolBranch
  simp only [bind, Except.bind, pure, Except.pure, hFA, Bool.false_eq_true, if_false]
  by_cases hobs : (strContainsB r "Observation:" && strContainsB r "<tool_call>") = true
  · rw [if_pos hobs]
    exact ⟨_, rfl, rfl, rfl, rfl, rfl, rfl, rfl⟩
  · rw [if_neg hobs]
    exact ⟨_, rfl, rfl, rfl, rfl, rfl, rfl, rfl⟩

theorem bodyMain_cont (env : Env) (r : String) (st : LoopSt)
    (hnotool : find_all_tool_calls r = .ok [])
    (hFA : strContainsB r "Final Answer:" = false) :
    ∃ st2, bodyMain env r st = (Option.none, .ok (.inr st2))
      ∧ st2.context = st.context ++ r ++ "\n" ∧ st2.ledger = st.ledger
      ∧ st2.last_response = r ∧ st2.identical_count = st.identical_count
      ∧ st2.history = st.history ∧ st2.report_done = st.report_done := by
  unfold bodyMain afterExtract
  rw [hnotool]
  obtain ⟨st2, h, hc, hl2, hlr, hic, hh, hr2⟩ :=
    noTool_cont env r { st with last_response := r, context := st.context ++ r ++ "\n" } hFA
  refine ⟨st2, ?_, hc, hl2, hlr, hic, hh, hr2⟩
  show (Option.none,
    noToolBranch env r { st with last_response := r, context := st.context ++ r ++ "\n" } [])
      = (Option.none, Except.ok (Sum.inr st2))
  rw [h]

theorem loopBody_cont_ne (env : Env) (r : String) (st : LoopSt)
    (hne : pyStrip r ≠ pyStrip st.last_response)
    (hnotool : find_all_tool_calls r = .ok [])
    (hFA : strContainsB r "Final Answer:" = false) :
    ∃ st2, loopBody env r st = (Option.none, .ok (.inr st2))
      ∧ st2.context = st.context ++ r ++ "\n" ∧ st2.ledger = st.ledger
      ∧ st2.last_response = r ∧ st2.identical_count = 0
      ∧ st2.history = st.history ∧ st2.report_done = st.report_done := by
  unfold loopBody
  rw [if_neg hne]
  exact bodyMain_cont env r { st with identical_count := 0 } hnotool hFA

theorem loopBody_cont_eq0 (env : Env) (r : String) (st : LoopSt)
    (heq : pyStrip r = pyStrip st.last_response) (hic : st.identical_count = 0)
    (hnotool : find_all_tool_calls r = .ok [])
    (hFA : strContainsB r "Final Answer:" = false) :
    ∃ st2, loopBody env r st = (Option.none, .ok (.inr st2))
      ∧ st2.context = st.context ++ r ++ "\n" ∧ st2.ledger = st.ledger
      ∧ st2.last_response = r ∧ st2.identical_count = 1
      ∧ st2.history = st.history ∧ st2.report_done = st.report_done := by
  unfold loopBody
  rw [if_pos heq, hic]
  rw [if_neg (by decide : ¬(2 ≤ 0 + 1))]
  obtain ⟨st2, h, hc, hl2, hlr, hic2, hh, hr2⟩ :=
    bodyMain_cont env r { st with identical_count := 0 + 1 } hnotool hFA
  exact ⟨st2, h, hc, hl2, hlr, hic2, hh, hr2⟩

theorem loopBody_stall (env : Env) (r : String) (st : LoopSt)
    (heq : pyStrip r = pyStrip st.last_response) (hic : st.identical_count = 1)
    (hled : st.ledger = []) (hnotool : find_all_tool_calls r = .ok []) :
    loopBody env r st = (Option.none, .ok (.inl ⟨stuckPrefix ++ st.context,
      st.history ++ [⟨"assistant", stuckPrefix ++ st.context⟩], st.context⟩)) := by
  unfold loopBody
  rw [if_pos heq, hic]
  rw [if_pos (by decide : 2 ≤ 1 + 1)]
  rw [hnotool, hled]
  rfl

theorem append_ne_empty_left (s t : String) (h : s.length ≠ 0) : s ++ t ≠ "" := by
  intro he
  have := congrArg String.length he
  rw [String.length_append] at this
  simp at this
  exact h this.1

/-- Claim C4 (amended): when the backend keeps producing one identical
tool-free output (no extractable tool call, no final-answer marker, not
whitespace-only), the ledger stays empty and the query terminates upon the
THIRD identical output — when the repeat counter reaches 2 — with the
non-empty stuck-in-loop fallback built from the accumulated context, before
the step budget (three model calls for any budget of at least three). -/
theorem claim4_three_identical_stall
    (env : Env) (system_prompt : String) (max_iterations : Nat)
    (history0 : List Message) (ldi0 : Option LastDeviceInfo) (user_query : String)
    (r : String)
    (hconst : ∀ ms, env.llm ms = .ok r)
    (hnotool : find_all_tool_calls r = .ok [])
    (hFA : strContainsB r "Final Answer:" = false)
    (hne : pyStrip r ≠ "")
    (hN : 3 ≤ max_iterations) :
    (ReActAgent.process_query env system_prompt max_iterations history0 ldi0
        user_query).llm_calls = 3
  ∧ (ReActAgent.process_query env system_prompt max_iterations history0 ldi0
        user_query).exec_trace = []
  ∧ (ReActAgent.process_query env system_prompt max_iterations history0 ldi0
        user_query).answer
      = stuckPrefix ++ (ReActAgent.process_query env system_prompt max_iterations
          history0 ldi0 user_query).context
  ∧ (ReActAgent.process_query env system_prompt max_iterations history0 ldi0
        user_query).answer ≠ "" := by
  obtain ⟨k, rfl⟩ : ∃ k, max_iterations = k + 2 + 1 := ⟨max_iterations - 3, by omega⟩
  unfold ReActAgent.process_query
  obtain ⟨st1, hb1, hc1, hl1, hlr1, hic1, hh1, hr1⟩ :=
    loopBody_cont_ne env r
      { messages := buildOutbound system_prompt
          (history0 ++ [⟨"user", user_query⟩]) user_query ldi0,
        history := history0 ++ [⟨"user", user_query⟩], ldi := ldi0, context := "",
        ledger := [], last_response := "", identical_count := 0, info_done := false,
        report_done := false } hne hnotool hFA
  rw [loopRun_body_inr env (k + 2) _ r Option.none st1 (hconst _) hb1]
  obtain ⟨k2, hk2⟩ : ∃ k2, k + 2 = k2 + 1 + 1 := ⟨k, by omega⟩
  rw [hk2]
  obtain ⟨st2, hb2, hc2, hl2, hlr2, hic2, hh2, hr2⟩ :=
    loopBody_cont_eq0 env r st1 (by rw [hlr1]) hic1 hnotool hFA
  rw [loopRun_body_inr env (k2 + 1) _ r Option.none st2 (hconst _) hb2]
  have hb3 := loopBody_stall env r st2 (by rw [hlr2]) hic2 (hl2.trans hl1) hnotool
  rw [loopRun_body_inl env k2 _ r Option.none _ (hconst _) hb3]
  refine ⟨rfl, rfl, rfl, ?_⟩
  exact append_ne_empty_left stuckPrefix st2.context (by decide)

/-- Claim C4 (amended) witness: the constant backend `envConstA` at
`max_iterations = 3` on an empty history. -/
theorem claim4_three_identical_stall_witness :
    (ReActAgent.process_query envConstA "S" 3 [] Option.none "hi").llm_calls = 3
  ∧ (ReActAgent.process_query envConstA "S" 3 [] Option.none "hi").exec_trace = []
  ∧ (ReActAgent.process_query envConstA "S" 3 [] Option.none "hi").answer
      = stuckPrefix ++ (ReActAgent.process_query envConstA "S" 3 [] Option.none
          "hi").context
  ∧ (ReActAgent.process_query envConstA "S" 3 [] Option.none "hi").answer ≠ "" :=
  claim4_three_identical_stall envConstA "S" 3 [] Option.none "hi" "Thought: hmm"
    (fun _ => rfl) rfl rfl (by decide) (by decide)


theorem loopRun_budget (env : Env)
    (hFA : ∀ ms r2, env.llm ms = .ok r2 → strContainsB r2 "Final Answer:" = false)
    (fuel : Nat) (st : LoopSt)
    (hcaught : (loopRun env fuel st).caught = Option.none)
    (hchain : List.Chain' (fun a b => a ≠ b)
      (pyStrip st.last_response :: (loopRun env fuel st).resp_trace.map pyStrip))
    (hic : st.identical_count = 0) :
    (loopRun env fuel st).llm_calls = fuel
  ∧ (loopRun env fuel st).answer = timeoutPrefix ++ (loopRun env fuel st).context := by
  induction fuel generalizing st with
  | zero => simp [loopRun_zero]
  | succ n ih =>
      cases hl : env.llm st.messages with
      | error e =>
          rw [loopRun_llm_err env n st e hl] at hcaught
          exact absurd hcaught (by simp)
      | ok r =>
          rcases hb : loopBody env r st with ⟨ev, out⟩
          cases out with
          | error e =>
              rw [loopRun_body_err env n st r ev e hl hb] at hcaught
              exact absurd hcaught (by simp)
          | ok s =>
              cases s with
              | inl rd =>
                  obtain ⟨_, hd⟩ := loopBody_inl env r st ev rd hb
                  rcases hd with hd | hd
                  · rw [hFA st.messages r hl] at hd
                    exact Bool.noConfusion hd
                  · rw [loopRun_body_inl env n st r ev rd hl hb] at hchain
                    simp only [List.map_cons] at hchain
                    have := (List.chain'_cons.mp hchain).1
                    exact absurd hd.symm this
              | inr st2 =>
                  have heqn := loopRun_body_inr env n st r ev st2 hl hb
                  rw [heqn] at hcaught hchain ⊢
                  simp only at hcaught hchain ⊢
                  simp only [List.map_cons] at hchain
                  obtain ⟨hpair, hchain2⟩ := List.chain'_cons.mp hchain
                  obtain ⟨hlr2, _, _, _, _, hic2⟩ := loopBody_inr env r st ev st2 hb
                  have hics : st2.identical_count = 0 := hic2 (fun hx => hpair hx.symm)
                  have hch2 : List.Chain' (fun a b => a ≠ b)
                      (pyStrip st2.last_response :: (loopRun env n st2).resp_trace.map pyStrip) := by
                    rw [hlr2]
                    exact hchain2
                  obtain ⟨hcalls, hans⟩ := ih st2 hcaught hch2 hics
                  exact ⟨by rw [hcalls], hans⟩

/-- Claim C5 (amended): with `max_iterations = N`, when the model never
emits a "Final Answer:" marker, never produces identical consecutive
outputs (so the stall guard never fires), and no exception is raised during
the run (`caught = none`: every backend call returns and every executed
tool observation formats without error), the loop terminates after exactly
N model calls and the returned response is the step-budget message carrying
the accumulated free-text context (hence non-empty). -/
theorem claim5_budget_exhaustion
    (env : Env) (system_prompt : String) (max_iterations : Nat)
    (history0 : List Message) (ldi0 : Option LastDeviceInfo) (user_query : String)
    (hFA : ∀ ms r2, env.llm ms = .ok r2 → strContainsB r2 "Final Answer:" = false)
    (hcaught : (ReActAgent.process_query env system_prompt max_iterations history0
        ldi0 user_query).caught = Option.none)
    (hchain : List.Chain' (fun a b => a ≠ b)
      (pyStrip "" :: (ReActAgent.process_query env system_prompt max_iterations
          history0 ldi0 user_query).resp_trace.map pyStrip)) :
    (ReActAgent.process_query env system_prompt max_iterations history0 ldi0
        user_query).llm_calls = max_iterations
  ∧ (ReActAgent.process_query env system_prompt max_iterations history0 ldi0
        user_query).answer
      = timeoutPrefix ++ (ReActAgent.process_query env system_prompt max_iterations
          history0 ldi0 user_query).context
  ∧ (ReActAgent.process_query env system_prompt max_iterations history0 ldi0
        user_query).answer ≠ "" := by
  obtain ⟨h1, h2⟩ := loopRun_budget env hFA max_iterations _ hcaught hchain rfl
  exact ⟨h1, h2, fun he =>
    append_ne_empty_left timeoutPrefix _ (by decide) (h2.symm.trans he)⟩

set_option maxRecDepth 8000 in
/-- Claim C5 (amended) witness: the backend `envDistinct` produces "A" then
"B" (never identical, never a final answer) and nothing raises; with
`max_iterations = 2` the run makes exactly two model calls. -/
theorem claim5_budget_exhaustion_witness :
    (ReActAgent.process_query envDistinct "S" 2 [] Option.none "q").llm_calls = 2
  ∧ (ReActAgent.process_query envDistinct "S" 2 [] Option.none "q").answer
      = timeoutPrefix ++ (ReActAgent.process_query envDistinct "S" 2 [] Option.none
          "q").context
  ∧ (ReActAgent.process_query envDistinct "S" 2 [] Option.none "q").answer ≠ "" := by
  refine claim5_budget_exhaustion envDistinct "S" 2 [] Option.none "q" ?_ rfl ?_
  · intro ms r2 h
    have hr : r2 = if ms.length = 2 then "A" else "B" := by
      have := congrArg (fun x => match x with | Except.ok v => v | Except.error _ => "") h
      simpa using this.symm
    subst hr
    by_cases hms : ms.length = 2
    · simp only [hms, if_pos]
      decide
    · rw [if_neg hms]
      decide
  · have hrt : (ReActAgent.process_query envDistinct "S" 2 [] Option.none "q").resp_trace
        = ["A", "B"] := rfl
    rw [hrt]
    simp only [List.map_cons, List.map_nil]
    exact List.chain'_cons.mpr ⟨by decide, List.chain'_cons.mpr ⟨by decide,
      List.chain'_singleton _⟩⟩


/-- Claim C6 (amended): the synthetic affirmation message is appended iff
the query (lowered, stripped) is a bare affirmation AND SOME message in the
conversation history (scanned most-recent-first) is an assistant message
that contains "detailed report" (case-insensitively) and contains a
question mark anywhere — not only when the most recent assistant message
does, and not requiring the question mark to be final. -/
theorem claim6_affirmation_condition (system_prompt : String) (history : List Message)
    (user_query : String) (ldi : Option LastDeviceInfo) :
    buildOutbound system_prompt history user_query ldi
      = baseOutbound system_prompt history
        ++ (if memStr (pyStrip (pyLower user_query)) affirmations
              && history.any isReportOffer
            then [⟨"user", affirmSyntheticText user_query ldi⟩] else []) := by
  unfold buildOutbound baseOutbound
  by_cases hq : memStr (pyStrip (pyLower user_query)) affirmations = true
  · rw [if_pos hq]
    cases hf : history.reverse.find? isReportOffer with
    | some m =>
        have hany : history.any isReportOffer = true := by
          rw [List.any_eq_true]
          exact ⟨m, List.mem_reverse.mp (List.mem_of_find?_eq_some hf),
            List.find?_some hf⟩
        rw [hq, hany]
        simp
    | none =>
        have hany : history.any isReportOffer = false := by
          rw [List.any_eq_false]
          intro x hx
          have := List.find?_eq_none.mp hf x (List.mem_reverse.mpr hx)
          simpa using this
        rw [hq, hany]
        simp
  · rw [if_neg hq]
    have hq2 : memStr (pyStrip (pyLower user_query)) affirmations = false :=
      Bool.not_eq_true _ ▸ (by simpa using hq)
    rw [hq2]
    simp

/-- Claim C8 (amended): for every ToolResult dict whose `success` value is
falsy, `format_observation` returns (never raises) the rendered error text
`"Failed to retrieve data: " ++ str(result.get("error"))`; success results
with unexpected `data` shapes can raise instead of degrading (see the
counterexample). -/
theorem claim8_failure_never_raises (fs : PyFields)
    (h : pyTruthy (pyDictGetD fs "success" .none) = false) :
    format_observation (.dict fs)
      = .ok ("Failed to retrieve data: " ++ pyStr (pyDictGetD fs "error" .none)) := by
  unfold format_observation
  simp only [pyDictGetD] at h
  simp [pyGetMethod, bind, Except.bind, pure, Except.pure, pyDictGetD, h]

/-- Claim C8 (amended) witness: a concrete failure result renders its error
text. -/
theorem claim8_failure_never_raises_witness :
    pyTruthy (pyDictGetD (PyFields.ofList [("success", .bool false), ("error", .str "boom")])
        "success" .none) = false
  ∧ format_observation (pyDict [("success", .bool false), ("error", .str "boom")])
      = .ok ("Failed to retrieve data: " ++ pyStr (pyDictGetD
          (PyFields.ofList [("success", .bool false), ("error", .str "boom")])
          "error" .none)) := by
  have h : pyTruthy (pyDictGetD (PyFields.ofList
      [("success", .bool false), ("error", .str "boom")]) "success" .none) = false := by
    decide
  exact ⟨h, claim8_failure_never_raises
    (PyFields.ofList [("success", .bool false), ("error", .str "boom")]) h⟩


theorem PyItems_toList_ofList (l : List PyVal) : (PyItems.ofList l).toList = l := by
  induction l with
  | nil => rfl
  | cons x xs ih => simp [PyItems.ofList, PyItems.toList, ih]

theorem pyIterate_pyList (l : List PyVal) : pyIterate (pyList l) = .ok l := by
  simp [pyIterate, pyList, PyItems_toList_ofList]

theorem pyLowerListE_strs (l : List String) :
    pyLowerListE (l.map PyVal.str) = .ok (l.map (fun s => PyVal.str (pyLower s))) := by
  induction l with
  | nil => rfl
  | cons x xs ih => simp [pyLowerListE, ih]

theorem pyJoin_strs (sep : String) (l : List String) :
    pyJoin sep (l.map PyVal.str) = .ok (joinSep sep l) := by
  induction l with
  | nil => rfl
  | cons x xs ih =>
      cases xs with
      | nil => rfl
      | cons y ys =>
          simp only [List.map_cons] at ih ⊢
          rw [show pyJoin sep (PyVal.str x :: PyVal.str y :: List.map PyVal.str ys)
              = (pyJoin sep (PyVal.str y :: List.map PyVal.str ys)).bind
                  (fun r => Except.ok (x ++ sep ++ r)) from rfl, ih]
          rfl

theorem memPyVal_str_map (x : String) (l : List String) :
    memPyVal (.str x) (l.map PyVal.str) = decide (x ∈ l) := by
  induction l with
  | nil => simp [memPyVal]
  | cons a as ih =>
      simp only [List.map_cons, memPyVal, List.any_cons]
      simp only [memPyVal] at ih
      rw [ih]
      by_cases hax : x = a
      · subst hax
        simp
      · have hne : ¬ (PyVal.str a = PyVal.str x) := by
          intro hc
          injection hc with h0
          exact hax h0.symm
        simp [List.mem_cons, hax, hne]

theorem tags_cond_false (tags : List String) (a b : String)
    (h : ¬(a ∈ tags.map pyLower ∧ b ∈ tags.map pyLower)) :
    (memPyVal (.str a) ((tags.map pyLower).map PyVal.str)
      && memPyVal (.str b) ((tags.map pyLower).map PyVal.str)) = false := by
  rw [memPyVal_str_map, memPyVal_str_map]
  cases hda : decide (a ∈ tags.map pyLower) with
  | false => rfl
  | true =>
      cases hdb : decide (b ∈ tags.map pyLower) with
      | false => rfl
      | true => exact absurd ⟨of_decide_eq_true hda, of_decide_eq_true hdb⟩ h

theorem map_str_lower (tags : List String) :
    tags.map (fun s => PyVal.str (pyLower s)) = (tags.map pyLower).map PyVal.str := by
  simp [List.map_map]

theorem execute_tool_obs_report_failure
    (norm_info : PyVal → Except String PyVal)
    (norm_report : PyVal → PyVal → Except String PyVal)
    (hostname tagsV : PyVal) (msg : String)
    (hrep : norm_report hostname tagsV = .ok (normFailure msg hostname)) :
    ReActAgent.execute_tool_obs norm_info norm_report
      (pyDict [("name", .str "get_device_report"),
               ("arguments", pyDict [("hostname", hostname), ("tags", tagsV)])])
      = .ok ("Tool execution failed: " ++ msg) := by
  have hexec : ToolManager.execute_tool norm_info norm_report
      (pyDict [("name", .str "get_device_report"),
               ("arguments", pyDict [("hostname", hostname), ("tags", tagsV)])])
      = Except.ok (collapseToolError (norm_report hostname tagsV)) := rfl
  unfold ReActAgent.execute_tool_obs
  rw [hexec, hrep]
  rfl

/-- Claim C7 (amended): for a tags list matching neither accepted set
(case-insensitively), the standalone `GetDeviceReport.execute` returns the
failure whose error text names both accepted tag sets, but
`NormTools.get_device_report` — the implementation actually wired into the
agent — returns the failure "No specific report available for device with
tags: ..." which does not name them, and the ReAct agent then feeds the
model the observation "Tool execution failed: " followed by that NormTools
error text. -/
theorem claim7_unknown_tags_error
    (http : String → HttpResp) (hostname : PyVal) (tags : List String)
    (h1 : ¬("ce" ∈ tags.map pyLower ∧ "comware" ∈ tags.map pyLower))
    (h2 : ¬("timos" ∈ tags.map pyLower ∧ "core" ∈ tags.map pyLower)) :
    GetDeviceReport.execute http hostname (pyList (tags.map PyVal.str))
      = normFailure ("Unknown device type for tags: " ++ pyStr (pyList (tags.map PyVal.str))
          ++ ". Use [\x27TIMOS\x27, \x27CORE\x27] or [\x27CE\x27, \x27COMWARE\x27]") hostname
  ∧ NormTools.get_device_report http hostname (pyList (tags.map PyVal.str))
      = .ok (normFailure ("No specific report available for device with tags: "
          ++ joinSep ", " tags) hostname)
  ∧ ReActAgent.execute_tool_obs (fun h0 => NormTools.get_device_info http h0)
      (fun h0 t0 => NormTools.get_device_report http h0 t0)
      (pyDict [("name", .str "get_device_report"),
               ("arguments", pyDict [("hostname", hostname),
                                     ("tags", pyList (tags.map PyVal.str))])])
      = .ok ("Tool execution failed: "
          ++ ("No specific report available for device with tags: "
              ++ joinSep ", " tags)) := by
  have hce := tags_cond_false tags "ce" "comware" h1
  have htc := tags_cond_false tags "timos" "core" h2
  have hnorm : NormTools.get_device_report http hostname (pyList (tags.map PyVal.str))
      = .ok (normFailure ("No specific report available for device with tags: "
          ++ joinSep ", " tags) hostname) := by
    unfold NormTools.get_device_report
    rw [pyIterate_pyList]
    simp only [bind, Except.bind, pyLowerListE_strs, map_str_lower, hce, htc,
      Bool.false_eq_true, if_false]
    unfold pyJoinVal
    rw [pyIterate_pyList]
    simp [bind, Except.bind, pyJoin_strs, pure, Except.pure]
  refine ⟨?_, hnorm, ?_⟩
  · unfold GetDeviceReport.execute
    rw [pyIterate_pyList]
    simp only [bind, Except.bind, pyLowerListE_strs, map_str_lower, hce, htc,
      Bool.false_eq_true, if_false, pure, Except.pure]
  · exact execute_tool_obs_report_failure _ _ hostname (pyList (tags.map PyVal.str)) _ hnorm

theorem claim7_unknown_tags_error_witness :
    (¬("ce" ∈ (["FOO"] : List String).map pyLower ∧ "comware" ∈ (["FOO"] : List String).map pyLower))
  ∧ (¬("timos" ∈ (["FOO"] : List String).map pyLower ∧ "core" ∈ (["FOO"] : List String).map pyLower))
  ∧ (GetDeviceReport.execute httpNever (.str "X") (pyList ((["FOO"] : List String).map PyVal.str))
      = normFailure ("Unknown device type for tags: "
          ++ pyStr (pyList ((["FOO"] : List String).map PyVal.str))
          ++ ". Use [\x27TIMOS\x27, \x27CORE\x27] or [\x27CE\x27, \x27COMWARE\x27]") (.str "X")
    ∧ NormTools.get_device_report httpNever (.str "X") (pyList ((["FOO"] : List String).map PyVal.str))
      = .ok (normFailure ("No specific report available for device with tags: "
          ++ joinSep ", " ["FOO"]) (.str "X"))
    ∧ ReActAgent.execute_tool_obs (fun h0 => NormTools.get_device_info httpNever h0)
      (fun h0 t0 => NormTools.get_device_report httpNever h0 t0)
      (pyDict [("name", .str "get_device_report"),
               ("arguments", pyDict [("hostname", .str "X"),
                                     ("tags", pyList ((["FOO"] : List String).map PyVal.str))])])
      = .ok ("Tool execution failed: "
          ++ ("No specific report available for device with tags: "
              ++ joinSep ", " ["FOO"]))) :=
  ⟨by decide, by decide,
   claim7_unknown_tags_error httpNever (.str "X") ["FOO"] (by decide) (by decide)⟩

theorem dropWs_length (cs : List Char) : (dropWs cs).length ≤ cs.length := by
  unfold dropWs
  induction cs with
  | nil => simp
  | cons c tl ih =>
      by_cases hc : pyIsSpaceB c
      · rw [List.dropWhile_cons_of_pos hc]
        exact Nat.le_trans ih (Nat.le_succ _)
      · rw [List.dropWhile_cons_of_neg hc]

theorem findLazyClose_length (close : List Char) :
    ∀ (cs g rest : List Char), findLazyClose close cs = some (g, rest) →
      rest.length < cs.length := by
  intro cs
  induction cs with
  | nil =>
      intro g rest h
      simp [findLazyClose] at h
  | cons c tl ih =>
      intro g rest h
      unfold findLazyClose at h
      split at h
      · simp only [Option.some.injEq, Prod.mk.injEq] at h
        obtain ⟨_, hr⟩ := h
        subst hr
        have h1 := dropWs_length tl
        simp only [List.length_drop, List.length_cons]
        omega
      · cases hf : findLazyClose close tl with
        | none =>
            rw [hf] at h
            simp at h
        | some p =>
            rw [hf] at h
            simp only [Option.map, Option.some.injEq, Prod.mk.injEq] at h
            obtain ⟨_, hr⟩ := h
            have h1 := ih p.1 p.2 (by rw [hf])
            rw [hr] at h1
            simp only [List.length_cons]
            omega

theorem tryMatchAt_length (openTok close cs g rest : List Char)
    (h : tryMatchAt openTok close cs = some (g, rest)) : rest.length < cs.length := by
  unfold tryMatchAt at h
  split at h
  · split at h
    next c rest0 heq =>
      split at h
      · cases hf : findLazyClose close rest0 with
        | none =>
            rw [hf] at h
            simp at h
        | some p =>
            rw [hf] at h
            simp only [Option.map, Option.some.injEq, Prod.mk.injEq] at h
            obtain ⟨_, hr⟩ := h
            have h1 := findLazyClose_length close rest0 p.1 p.2 (by rw [hf])
            rw [hr] at h1
            have h2 : (c :: rest0).length ≤ (cs.drop openTok.length).length := by
              rw [← heq]
              exact dropWs_length _
            have h3 : (cs.drop openTok.length).length ≤ cs.length := by
              simp [List.length_drop]
            simp only [List.length_cons] at h2
            omega
      · exact absurd h (by simp)
    next heq => exact absurd h (by simp)
  · exact absurd h (by simp)

theorem finditerAux_sorted (openTok close : List Char) :
    ∀ (fuel pos : Nat) (cs : List Char),
      (∀ q ∈ finditerAux openTok close fuel pos cs, pos ≤ q.1)
      ∧ List.Pairwise (fun p q => p.1 < q.1) (finditerAux openTok close fuel pos cs) := by
  intro fuel
  induction fuel with
  | zero =>
      intro pos cs
      simp [finditerAux]
  | succ n ih =>
      intro pos cs
      cases cs with
      | nil => simp [finditerAux]
      | cons c tl =>
          rw [finditerAux]
          cases hm : tryMatchAt openTok close (c :: tl) with
          | none =>
              simp only
              obtain ⟨ih1, ih2⟩ := ih (pos + 1) tl
              exact ⟨fun q hq => Nat.le_trans (Nat.le_succ pos) (ih1 q hq), ih2⟩
          | some p =>
              obtain ⟨g, rest⟩ := p
              simp only
              obtain ⟨ih1, ih2⟩ := ih (pos + ((c :: tl).length - rest.length)) rest
              have hlt : rest.length < (c :: tl).length :=
                tryMatchAt_length openTok close (c :: tl) g rest hm
              have hpos : pos < pos + ((c :: tl).length - rest.length) := by omega
              constructor
              · intro q hq
                rcases List.mem_cons.mp hq with h0 | h0
                · subst h0
                  exact Nat.le_refl pos
                · exact Nat.le_of_lt (Nat.lt_of_lt_of_le hpos (ih1 q h0))
              · exact List.pairwise_cons.mpr
                  ⟨fun q hq => Nat.lt_of_lt_of_le hpos (ih1 q hq), ih2⟩

theorem finditer_sorted (openTok close : List Char) (cs : List Char) :
    List.Pairwise (fun p q => p.1 < q.1) (finditer openTok close cs) :=
  (finditerAux_sorted openTok close (cs.length + 1) 0 cs).2

set_option maxRecDepth 4000 in
/-- Claim C3 (amended): `find_all_tool_calls` returns the successfully
parsed blocks of both accepted syntaxes, but grouped by pattern — every
accepted tagged (`<tool_call>`) block first, then every accepted fenced
(three-backtick) block — with text order preserved only within each group
(each pattern scan yields matches at strictly increasing text positions),
not in overall order of appearance in the text. -/
theorem claim3_grouped_order (response : String) (l : List PyVal)
    (h : find_all_tool_calls response = .ok l) :
    List.Pairwise (fun p q => p.1 < q.1) (finditer tagOpenCs tagCloseCs response.data)
  ∧ List.Pairwise (fun p q => p.1 < q.1) (finditer fenceOpenCs fenceCloseCs response.data)
  ∧ ∃ l1 l2,
      collectBlocks (finditer tagOpenCs tagCloseCs response.data) = .ok l1
    ∧ collectBlocks (finditer fenceOpenCs fenceCloseCs response.data) = .ok l2
    ∧ l = l1 ++ l2 := by
  refine ⟨finditer_sorted _ _ _, finditer_sorted _ _ _, ?_⟩
  unfold find_all_tool_calls at h
  cases ha : collectBlocks (finditer tagOpenCs tagCloseCs response.data) with
  | error e =>
      rw [ha] at h
      simp [bind, Except.bind] at h
  | ok a =>
      rw [ha] at h
      simp only [bind, Except.bind] at h
      cases hb : collectBlocks (finditer fenceOpenCs fenceCloseCs response.data) with
      | error e =>
          rw [hb] at h
          simp at h
      | ok b =>
          rw [hb] at h
          simp only [pure, Except.pure, Except.ok.injEq] at h
          exact ⟨a, b, rfl, rfl, h.symm⟩

set_option maxRecDepth 4000 in
theorem claim3_grouped_order_witness :
    find_all_tool_calls mixedOrderText = .ok [callB, callA]
  ∧ (List.Pairwise (fun p q => p.1 < q.1) (finditer tagOpenCs tagCloseCs mixedOrderText.data)
    ∧ List.Pairwise (fun p q => p.1 < q.1) (finditer fenceOpenCs fenceCloseCs mixedOrderText.data)
    ∧ ∃ l1 l2,
        collectBlocks (finditer tagOpenCs tagCloseCs mixedOrderText.data) = .ok l1
      ∧ collectBlocks (finditer fenceOpenCs fenceCloseCs mixedOrderText.data) = .ok l2
      ∧ [callB, callA] = l1 ++ l2) :=
  ⟨rfl, claim3_grouped_order mixedOrderText [callB, callA] rfl⟩


end NormAgent
